import Mathlib

/-!
Formal model of the statement identity and graph indexing engine of the
`integrity` repository (a tamper-evident provenance store).

The Rust source is embedded shallowly:

* pure helper functions (`prepend_urn_cid`, `format_cids`, `format_uuids`,
  `calc_and_validate_cid`, `compute_cid`) become Lean functions over
  `String` / `List` / an inductive `Json` type;
* the external collaborators declared out of scope by the design
  (JSON-LD to N-Quads conversion, RDF canonicalization, the BLAKE3 digest)
  are passed in as explicit function parameters, mirroring the fact that
  the Rust code calls them through opaque library boundaries;
* the SQLite-backed graph indexer (`lineage/graph_indexer/sql_lite.rs`)
  becomes a pure state-passing model: the database is a record of tables
  (lists of rows), `INSERT OR IGNORE` becomes an insert-if-absent on the
  primary key, and the retrieval queries are translated join-by-join,
  `LEFT JOIN` by `LEFT JOIN`, with SQL `NULL` as `Option.none` and
  `COALESCE` as the first non-`none` value;
* the attribute store (`lineage/indexer/sql_lite.rs`) and the compiled
  filter `WHERE` clauses become an evaluator that follows SQLite's
  documented comparison semantics (three-valued logic, strict separation
  of the INTEGER/REAL and TEXT storage classes, `json_extract` /
  `json_type` behaviour).

`Result<T>` becomes `Except String T`; a Rust panic (`unimplemented!`,
failed column decode) is modelled as an `Except.error`. JSON numbers are
modelled as integers: every numeric literal appearing in the verified
claims is integral, and float semantics are out of scope.
-/

namespace Integrity

/-! ## JSON values

Model of `serde_json::Value` as far as the statement-identity code needs
it. Objects are association lists in serialization order; numbers are
modelled as integers (see the file header). -/

/-- Model of a serde_json JSON value. -/
inductive Json where
  | null : Json
  | bool (b : Bool) : Json
  | num (n : Int) : Json
  | str (s : String) : Json
  | arr (elems : List Json) : Json
  | obj (fields : List (String × Json)) : Json

/-- Removes the top-level member named `@id` from a JSON object, mirroring
`statement.as_object_mut()...remove("@id")` in `compute_cid`
(`lineage/models/statements/mod.rs`). A non-object value produces the
error of the `ok_or_else` branch. -/
def Json.removeId : Json → Except String Json
  | .obj fields => .ok (.obj (fields.filter (fun kv => kv.1 ≠ "@id")))
  | _ => .error "Failed to strip @id from integrity statement."

/-- Model of `compute_cid` (`lineage/models/statements/mod.rs`): serialize
the statement (the `Json` argument is that serialization), remove the
`@id` member, convert the JSON-LD document to N-Quads, canonicalize the
N-Quads, hash the canonical bytes with BLAKE3 under the RDFC-1.0
multicodec, and prefix the resulting CID string with the URN namespace.
The three collaborators (`jsonld_to_nquads`, `canonicalize_nquads`,
`blake3_cid RDFC_1_0`) are opaque library boundaries and are passed as
function parameters. -/
def compute_cid (jsonldToNquads : Json → Except String String)
    (canonicalizeNquads : String → Except String String)
    (blake3CidRdfc : String → Except String String)
    (statement : Json) : Except String String := do
  let stripped ← statement.removeId
  let nquads ← jsonldToNquads stripped
  let canonNquads ← canonicalizeNquads nquads
  let cid ← blake3CidRdfc canonNquads
  pure ("urn:cid:" ++ cid)

/-! ## Blob store CID validation -/

/-- Model of `calc_and_validate_cid` (`blob_store/mod.rs`). The BLAKE3
CID computation (`blake3_cid`) is an opaque collaborator passed as a
function parameter; blobs are byte lists, the multicodec code a natural
number. The source error message is reproduced up to punctuation (the
quotes around the two CIDs are dropped). -/
def calc_and_validate_cid (blake3Cid : Nat → List Nat → Except String String)
    (blob : List Nat) (multicodecCode : Nat)
    (expectedCid : Option String) : Except String String := do
  let computedCid ← blake3Cid multicodecCode blob
  match expectedCid with
  | some cid =>
      if cid ≠ computedCid then
        .error ("Computed CID " ++ computedCid ++
          " does not match provided CID " ++ cid ++ ".")
      else
        pure computedCid
  | none => pure computedCid

/-! ## CID string helpers and reference-list formatting -/

/-- Model of `prepend_urn_cid` (`cid/mod.rs`). The Rust function returns
`Result<String>` but its only failure mode is an assertion panic on the
empty string, which is unreachable from `format_cids`/`format_uuids`
because they filter empty entries first; the model is total. -/
def prepend_urn_cid (cid : String) : String :=
  if cid.startsWith "urn:cid:" then cid else "urn:cid:" ++ cid

/-- Model of `prepend_urn_uuid` (`cid/mod.rs`); see `prepend_urn_cid`. -/
def prepend_urn_uuid (uuid : String) : String :=
  if uuid.startsWith "urn:uuid:" then uuid else "urn:uuid:" ++ uuid

/-- Model of the `ValueOrArray<T>` untagged union
(`lineage/models/statements/mod.rs`). -/
inductive ValueOrArray (α : Type) where
  | value (v : α) : ValueOrArray α
  | array (l : List α) : ValueOrArray α
deriving DecidableEq

/-- Model of `ValueOrArray::to_vec_string` for string payloads. -/
def ValueOrArray.to_vec_string : ValueOrArray String → List String
  | .value v => [v]
  | .array l => l

/-- Model of `format_cids` (`lineage/models/statements/mod.rs`): drop
empty entries, prefix the rest with `urn:cid:`, and reject an empty
result; a single survivor becomes `ValueOrArray::Value`. -/
def format_cids (cids : List String) : Except String (ValueOrArray String) :=
  let cids := (cids.filter (fun s => !s.isEmpty)).map prepend_urn_cid
  match cids with
  | [] => .error "CID list must not be empty."
  | [single] => .ok (.value single)
  | _ => .ok (.array cids)

/-- Model of `format_uuids` (`lineage/models/statements/mod.rs`); the
source reuses the CID error message verbatim. -/
def format_uuids (uuids : List String) : Except String (ValueOrArray String) :=
  let uuids := (uuids.filter (fun s => !s.isEmpty)).map prepend_urn_uuid
  match uuids with
  | [] => .error "CID list must not be empty."
  | [single] => .ok (.value single)
  | _ => .ok (.array uuids)

/-- Model of `format_timestamp` (`lineage/models/statements/mod.rs`):
use the supplied timestamp, defaulting to the creation time, which is
passed in explicitly as `now`. -/
def format_timestamp (timestamp : Option String) (now : String) : String :=
  timestamp.getD now

/-- The fixed statement context link returned by `ig_common_context_link`
(`json_ld/mod.rs`). -/
def ig_common_context_link : String :=
  "urn:cid:bafkr4ibtc72t26blsnipjniwpoawtopufixoe7bbloqk7ko65cizgnhgnq"

/-! ## The statement model

One structure per statement variant, with the fields of the corresponding
Rust struct (`lineage/models/statements/*.rs`). Private Rust fields such
as `id` are modelled as ordinary fields. The DID attested sub-variants
carry, besides the shared header, a nested `vcomp` document; of that
document only the `@type` discriminant (`vcomp_type` here) is read by the
indexing layer, so the measurement payloads (hashes, certificates) are
omitted from the model. The embedded `ssi::vc::Credential` is likewise
modelled by the single projection the indexer reads: the optional `id` of
each credential subject. -/

/-- Credential subject of a W3C verifiable credential: only the optional
`id` is read by the graph indexer. -/
structure CredentialSubject where
  id : Option String
deriving DecidableEq

/-- Model of the `ssi::vc::Credential` payload of a `VcStatement`, reduced
to the projection used by the indexer (`credential_subject`). -/
structure Credential where
  credential_subject : List CredentialSubject
deriving DecidableEq

/-- Model of a DSSE signature (`lineage/models/dsse.rs`). -/
structure Signature where
  keyid : String
  sig : String
deriving DecidableEq

/-- Model of a DSSE envelope (`lineage/models/dsse.rs`). -/
structure Envelope where
  payload_type : String
  payload : String
  signatures : List Signature
deriving DecidableEq

/-- Model of `AssociationStatement`. -/
structure AssociationStatement where
  context : String
  id : String
  type_ : String
  subject : String
  association : String
  registered_by : String
  timestamp : String
deriving DecidableEq

/-- Model of `StorageStatement`. -/
structure StorageStatement where
  context : String
  id : String
  type_ : String
  registered_by : String
  timestamp : String
  data : String
  stored_on : String
  operated_by : String
deriving DecidableEq

/-- Model of `MetadataStatement`. -/
structure MetadataStatement where
  context : String
  id : String
  type_ : String
  subject : String
  metadata : String
  registered_by : String
  timestamp : String
deriving DecidableEq

/-- Model of `ComputationStatement`. -/
structure ComputationStatement where
  context : String
  id : String
  type_ : String
  computation : Option String
  input : ValueOrArray String
  output : ValueOrArray String
  operated_by : String
  executed_on : Option String
  registered_by : String
  timestamp : String
deriving DecidableEq

/-- Model of `VcStatement`. -/
structure VcStatement where
  context : String
  id : String
  type_ : String
  credential : Credential
  registered_by : String
  timestamp : String
deriving DecidableEq

/-- Model of `DsseStatement`. -/
structure DsseStatement where
  context : String
  id : String
  type_ : String
  credential_dsse : Envelope
  registered_by : String
  timestamp : String
deriving DecidableEq

/-- Model of `SigstoreBundleStatement`. -/
structure SigstoreBundleStatement where
  context : String
  id : String
  type_ : String
  subject : String
  sigstore_bundle : String
  registered_by : String
  timestamp : String
deriving DecidableEq

/-- Model of `DataStatement`. -/
structure DataStatement where
  context : String
  id : String
  type_ : String
  data : ValueOrArray String
  registered_by : String
  timestamp : String
deriving DecidableEq

/-- Model of `EntityStatement`. -/
structure EntityStatement where
  context : String
  id : String
  type_ : String
  entity : ValueOrArray String
  registered_by : String
  timestamp : String
deriving DecidableEq

/-- Model of `GovernanceStatement`. -/
structure GovernanceStatement where
  context : String
  id : String
  type_ : String
  registered_by : String
  timestamp : String
  subject : String
  document : String
deriving DecidableEq

/-- Model of `DidStatementRegular`. -/
structure DidStatementRegular where
  context : String
  id : String
  type_ : String
  did : String
  registered_by : String
  timestamp : String
deriving DecidableEq

/-- Shared header of the five attested DID statement variants
(`did_statement/eqty_vcomp_*.rs`); `vcomp_type` is the `@type` member of
the nested `vcomp` attestation document, the only part of that document
the indexer reads. -/
structure DidStatementAttested where
  context : String
  id : String
  type_ : String
  did : String
  vcomp_type : String
  registered_by : String
  timestamp : String
deriving DecidableEq

/-- Model of the `DidStatement` enum (`did_statement/mod.rs`). -/
inductive DidStatement where
  | AmdSevV1 (s : DidStatementAttested) : DidStatement
  | DockerV1 (s : DidStatementAttested) : DidStatement
  | CustomV1 (s : DidStatementAttested) : DidStatement
  | IntelTdxV0 (s : DidStatementAttested) : DidStatement
  | AzureV1 (s : DidStatementAttested) : DidStatement
  | Regular (s : DidStatementRegular) : DidStatement
deriving DecidableEq

/-- Model of `DidStatement::get_registered_by`. -/
def DidStatement.get_registered_by : DidStatement → String
  | .AmdSevV1 s => s.registered_by
  | .DockerV1 s => s.registered_by
  | .CustomV1 s => s.registered_by
  | .IntelTdxV0 s => s.registered_by
  | .AzureV1 s => s.registered_by
  | .Regular s => s.registered_by

/-- Model of `DidStatement::get_type`: the `vcomp` discriminant for
attested variants, the statement type for the regular variant. -/
def DidStatement.get_type : DidStatement → String
  | .AmdSevV1 s => s.vcomp_type
  | .DockerV1 s => s.vcomp_type
  | .CustomV1 s => s.vcomp_type
  | .IntelTdxV0 s => s.vcomp_type
  | .AzureV1 s => s.vcomp_type
  | .Regular s => s.type_

/-- Model of `DidStatement::get_did`. -/
def DidStatement.get_did : DidStatement → String
  | .AmdSevV1 s => s.did
  | .DockerV1 s => s.did
  | .CustomV1 s => s.did
  | .IntelTdxV0 s => s.did
  | .AzureV1 s => s.did
  | .Regular s => s.did

/-- Model of `DidStatement::get_id` (`StatementTrait` dispatch). -/
def DidStatement.get_id : DidStatement → String
  | .AmdSevV1 s => s.id
  | .DockerV1 s => s.id
  | .CustomV1 s => s.id
  | .IntelTdxV0 s => s.id
  | .AzureV1 s => s.id
  | .Regular s => s.id

/-- Model of the `Statement` enum (`lineage/models/statements/mod.rs`). -/
inductive Statement where
  | AssociationRegistration (s : AssociationStatement) : Statement
  | StorageRegistration (s : StorageStatement) : Statement
  | MetadataRegistration (s : MetadataStatement) : Statement
  | ComputationRegistration (s : ComputationStatement) : Statement
  | CredentialRegistration (s : VcStatement) : Statement
  | CredentialDsseRegistration (s : DsseStatement) : Statement
  | CredentialSigstoreBundleRegistration (s : SigstoreBundleStatement) : Statement
  | DidRegistration (s : DidStatement) : Statement
  | DataRegistration (s : DataStatement) : Statement
  | EntityRegistration (s : EntityStatement) : Statement
  | GovernanceRegistration (s : GovernanceStatement) : Statement
deriving DecidableEq

/-- Model of `StatementTrait::get_id` dispatch on `Statement`. -/
def Statement.get_id : Statement → String
  | .AssociationRegistration s => s.id
  | .StorageRegistration s => s.id
  | .MetadataRegistration s => s.id
  | .ComputationRegistration s => s.id
  | .CredentialRegistration s => s.id
  | .CredentialDsseRegistration s => s.id
  | .CredentialSigstoreBundleRegistration s => s.id
  | .DidRegistration s => s.get_id
  | .DataRegistration s => s.id
  | .EntityRegistration s => s.id
  | .GovernanceRegistration s => s.id

/-- Model of `Statement::get_registered_by`. -/
def Statement.get_registered_by : Statement → String
  | .AssociationRegistration s => s.registered_by
  | .StorageRegistration s => s.registered_by
  | .MetadataRegistration s => s.registered_by
  | .ComputationRegistration s => s.registered_by
  | .CredentialRegistration s => s.registered_by
  | .CredentialDsseRegistration s => s.registered_by
  | .CredentialSigstoreBundleRegistration s => s.registered_by
  | .DidRegistration s => s.get_registered_by
  | .DataRegistration s => s.registered_by
  | .EntityRegistration s => s.registered_by
  | .GovernanceRegistration s => s.registered_by

/-- Model of `StatementTrait::get_type_string`: the `@type` member of the
serialized statement, which serde writes from the `type_` field of each
variant struct. -/
def Statement.get_type_string : Statement → String
  | .AssociationRegistration s => s.type_
  | .StorageRegistration s => s.type_
  | .MetadataRegistration s => s.type_
  | .ComputationRegistration s => s.type_
  | .CredentialRegistration s => s.type_
  | .CredentialDsseRegistration s => s.type_
  | .CredentialSigstoreBundleRegistration s => s.type_
  | .DidRegistration (.AmdSevV1 s) => s.type_
  | .DidRegistration (.DockerV1 s) => s.type_
  | .DidRegistration (.CustomV1 s) => s.type_
  | .DidRegistration (.IntelTdxV0 s) => s.type_
  | .DidRegistration (.AzureV1 s) => s.type_
  | .DidRegistration (.Regular s) => s.type_
  | .DataRegistration s => s.type_
  | .EntityRegistration s => s.type_
  | .GovernanceRegistration s => s.type_

/-! ## Statement constructors

The `create` constructors of the variants whose reference lists are
validated by `format_cids` / `format_uuids`. Serialization follows serde:
fields in declaration order, `@context` / `@id` / `@type` renames,
camelCase, `Option` fields omitted when `None`, `ValueOrArray` untagged.
The creation time (used when no timestamp is supplied) is the explicit
`now` parameter. -/

/-- Serde serialization of a `ValueOrArray<String>` (untagged). -/
def ValueOrArray.toJson : ValueOrArray String → Json
  | .value v => .str v
  | .array l => .arr (l.map Json.str)

/-- Serde serialization of a `DataStatement`. -/
def DataStatement.toJson (s : DataStatement) : Json :=
  .obj [("@context", .str s.context), ("@id", .str s.id),
    ("@type", .str s.type_), ("data", s.data.toJson),
    ("registeredBy", .str s.registered_by),
    ("timestamp", .str s.timestamp)]

/-- Model of `DataStatement::create` (`data_statement.rs`). -/
def DataStatement.create (jsonldToNquads : Json → Except String String)
    (canonicalizeNquads : String → Except String String)
    (blake3CidRdfc : String → Except String String)
    (data : List String) (registered_by : String)
    (timestamp : Option String) (now : String) :
    Except String DataStatement := do
  let data ← format_cids data
  let statement : DataStatement :=
    { context := ig_common_context_link, id := "in-progress",
      type_ := "DataRegistration", data := data,
      registered_by := registered_by,
      timestamp := format_timestamp timestamp now }
  let id ← compute_cid jsonldToNquads canonicalizeNquads blake3CidRdfc
    statement.toJson
  pure { statement with id := id }

/-- Serde serialization of an `EntityStatement`. -/
def EntityStatement.toJson (s : EntityStatement) : Json :=
  .obj [("@context", .str s.context), ("@id", .str s.id),
    ("@type", .str s.type_), ("entity", s.entity.toJson),
    ("registeredBy", .str s.registered_by),
    ("timestamp", .str s.timestamp)]

/-- Model of `EntityStatement::create` (`entity_statement.rs`). -/
def EntityStatement.create (jsonldToNquads : Json → Except String String)
    (canonicalizeNquads : String → Except String String)
    (blake3CidRdfc : String → Except String String)
    (entity : List String) (registered_by : String)
    (timestamp : Option String) (now : String) :
    Except String EntityStatement := do
  let entity ← format_uuids entity
  let statement : EntityStatement :=
    { context := ig_common_context_link, id := "in-progress",
      type_ := "EntityRegistration", entity := entity,
      registered_by := registered_by,
      timestamp := format_timestamp timestamp now }
  let id ← compute_cid jsonldToNquads canonicalizeNquads blake3CidRdfc
    statement.toJson
  pure { statement with id := id }

/-- Serde serialization of a `ComputationStatement` (optional fields
skipped when absent). -/
def ComputationStatement.toJson (s : ComputationStatement) : Json :=
  .obj ([("@context", .str s.context), ("@id", .str s.id),
    ("@type", .str s.type_)] ++
    (match s.computation with
     | some c => [("computation", Json.str c)]
     | none => []) ++
    [("input", s.input.toJson), ("output", s.output.toJson),
     ("operatedBy", .str s.operated_by)] ++
    (match s.executed_on with
     | some e => [("executedOn", Json.str e)]
     | none => []) ++
    [("registeredBy", .str s.registered_by),
     ("timestamp", .str s.timestamp)])

/-- Model of `ComputationStatement::create` (`computation_statement.rs`). -/
def ComputationStatement.create (jsonldToNquads : Json → Except String String)
    (canonicalizeNquads : String → Except String String)
    (blake3CidRdfc : String → Except String String)
    (computation : Option String) (input : List String)
    (output : List String) (operated_by : String)
    (executed_on : Option String) (registered_by : String)
    (timestamp : Option String) (now : String) :
    Except String ComputationStatement := do
  let computation := computation.map prepend_urn_cid
  let input ← format_cids input
  let output ← format_cids output
  let statement : ComputationStatement :=
    { context := ig_common_context_link, id := "in-progress",
      type_ := "ComputationRegistration", computation := computation,
      input := input, output := output, operated_by := operated_by,
      executed_on := executed_on, registered_by := registered_by,
      timestamp := format_timestamp timestamp now }
  let id ← compute_cid jsonldToNquads canonicalizeNquads blake3CidRdfc
    statement.toJson
  pure { statement with id := id }

/-! ## The graph store database

Model of the SQLite schema created by `Sqlite::init`
(`lineage/graph_indexer/sql_lite.rs`). Each table is a list of rows in
insertion order; `INSERT OR IGNORE` inserts only when no row with the
same primary key exists. The `statement TEXT` column holds the serialized
statement; serialization round-trips through serde, so the model stores
the `Statement` value itself. Graph ids (`Uuid` in Rust, bound as
strings) are strings. -/

/-- Row of the tables that store only `(id, statement, registered_by)`
(computation, data, entity, sigstore, dsse). -/
structure StmtRow where
  id : String
  statement : Statement
  registered_by : String
deriving DecidableEq

/-- Row of `metadata_statements` (extra indexed column `subject`). -/
structure MetadataRow where
  id : String
  statement : Statement
  registered_by : String
  subject : String
deriving DecidableEq

/-- Row of `storage_statements` (extra indexed column `data`). -/
structure StorageRow where
  id : String
  statement : Statement
  registered_by : String
  data : String
deriving DecidableEq

/-- Row of `association_statements` (extra columns `subject`,
`association`). -/
structure AssociationStmtRow where
  id : String
  statement : Statement
  registered_by : String
  subject : String
  association : String
deriving DecidableEq

/-- Row of `credential_statements` (extra column `credential_subject`). -/
structure CredentialRow where
  id : String
  statement : Statement
  registered_by : String
  credential_subject : String
deriving DecidableEq

/-- Row of `did_statements` (extra columns `type`, `did`). -/
structure DidRow where
  id : String
  statement : Statement
  registered_by : String
  type_ : String
  did : String
deriving DecidableEq

/-- Row of `governance_statements` (extra columns `subject`,
`document`). -/
structure GovernanceRow where
  id : String
  statement : Statement
  registered_by : String
  subject : String
  document : String
deriving DecidableEq

/-- Row of `data_statement_subjects` (composite primary key). -/
structure DataSubjectRow where
  statement_id : String
  subject : String
deriving DecidableEq

/-- Row of `entity_statement_subjects` (composite primary key). -/
structure EntitySubjectRow where
  statement_id : String
  entity : String
deriving DecidableEq

/-- Row of `statement_graph_link` (composite primary key). -/
structure LinkRow where
  statement_id : String
  graph_id : String
deriving DecidableEq

/-- Row of `graphs`. -/
structure GraphRow where
  graph_id : String
  name : String
  parent_id : Option String
deriving DecidableEq

/-- The graph store state: one list per table of the schema. -/
structure GraphDB where
  computation_statements : List StmtRow
  data_statements : List StmtRow
  data_statement_subjects : List DataSubjectRow
  metadata_statements : List MetadataRow
  storage_statements : List StorageRow
  entity_statements : List StmtRow
  entity_statement_subjects : List EntitySubjectRow
  association_statements : List AssociationStmtRow
  statement_graph_link : List LinkRow
  graphs : List GraphRow
  sigstore_statements : List StmtRow
  credential_statements : List CredentialRow
  dsse_statements : List StmtRow
  did_statements : List DidRow
  governance_statements : List GovernanceRow
deriving DecidableEq

/-- The empty database produced by `Sqlite::init`. -/
def GraphDB.empty : GraphDB :=
  { computation_statements := [], data_statements := [],
    data_statement_subjects := [], metadata_statements := [],
    storage_statements := [], entity_statements := [],
    entity_statement_subjects := [], association_statements := [],
    statement_graph_link := [], graphs := [], sigstore_statements := [],
    credential_statements := [], dsse_statements := [],
    did_statements := [], governance_statements := [] }

/-- INSERT OR IGNORE: append the row unless a row with the same primary
key (as computed by `key`) is already present. -/
def insertOrIgnore {ρ κ : Type} [DecidableEq κ] (key : ρ → κ)
    (table : List ρ) (row : ρ) : List ρ :=
  if table.any (fun r => key r = key row) then table else table ++ [row]

/-- Model of `associate_statement_to_graph`: INSERT OR IGNORE into
`statement_graph_link`. -/
def GraphDB.associate_statement_to_graph (db : GraphDB)
    (statement_id : String) (graph_id : String) : GraphDB :=
  { db with
      statement_graph_link := insertOrIgnore
        (fun l => (l.statement_id, l.graph_id)) db.statement_graph_link
        { statement_id := statement_id, graph_id := graph_id } }

/-- Model of `opt_associate_statement_to_graph`. -/
def GraphDB.opt_associate_statement_to_graph (db : GraphDB)
    (statement_id : String) (graph_id : Option String) : GraphDB :=
  match graph_id with
  | some gid => db.associate_statement_to_graph statement_id gid
  | none => db

/-- Model of `register_graph_statement` (graph-scoped variants only; a
global variant reaching this function is logged and ignored). -/
def GraphDB.register_graph_statement (db : GraphDB) (statement : Statement)
    (graph_id : Option String) : GraphDB :=
  match statement with
  | .ComputationRegistration s =>
      let db := { db with
        computation_statements := insertOrIgnore (fun r => r.id)
          db.computation_statements
          { id := s.id, statement := statement,
            registered_by := s.registered_by } }
      db.opt_associate_statement_to_graph s.id graph_id
  | .DataRegistration s =>
      let db := { db with
        data_statements := insertOrIgnore (fun r => r.id)
          db.data_statements
          { id := s.id, statement := statement,
            registered_by := s.registered_by } }
      let db := db.opt_associate_statement_to_graph s.id graph_id
      { db with
          data_statement_subjects := s.data.to_vec_string.foldl
            (fun t item =>
              insertOrIgnore (fun r => (r.statement_id, r.subject)) t
                { statement_id := s.id, subject := item })
            db.data_statement_subjects }
  | .MetadataRegistration s =>
      let db := { db with
        metadata_statements := insertOrIgnore (fun r => r.id)
          db.metadata_statements
          { id := s.id, statement := statement,
            registered_by := s.registered_by, subject := s.subject } }
      db.opt_associate_statement_to_graph s.id graph_id
  | .StorageRegistration s =>
      let db := { db with
        storage_statements := insertOrIgnore (fun r => r.id)
          db.storage_statements
          { id := s.id, statement := statement,
            registered_by := s.registered_by, data := s.data } }
      db.opt_associate_statement_to_graph s.id graph_id
  | .EntityRegistration s =>
      let db := { db with
        entity_statements := insertOrIgnore (fun r => r.id)
          db.entity_statements
          { id := s.id, statement := statement,
            registered_by := s.registered_by } }
      let db := db.opt_associate_statement_to_graph s.id graph_id
      { db with
          entity_statement_subjects := s.entity.to_vec_string.foldl
            (fun t item =>
              insertOrIgnore (fun r => (r.statement_id, r.entity)) t
                { statement_id := s.id, entity := item })
            db.entity_statement_subjects }
  | .AssociationRegistration s =>
      let db := { db with
        association_statements := insertOrIgnore (fun r => r.id)
          db.association_statements
          { id := s.id, statement := statement,
            registered_by := s.registered_by, subject := s.subject,
            association := s.association } }
      db.opt_associate_statement_to_graph s.id graph_id
  | _ => db

/-- Model of `register_global_statement` (global variants only; a
graph-scoped variant reaching this function is logged and ignored). -/
def GraphDB.register_global_statement (db : GraphDB)
    (statement : Statement) : GraphDB :=
  match statement with
  | .CredentialSigstoreBundleRegistration s =>
      { db with
          sigstore_statements := insertOrIgnore (fun r => r.id)
            db.sigstore_statements
            { id := s.id, statement := statement,
              registered_by := s.registered_by } }
  | .CredentialRegistration s =>
      let subject :=
        ((s.credential.credential_subject.head?.bind
          (fun cs => cs.id)).getD "")
      { db with
          credential_statements := insertOrIgnore (fun r => r.id)
            db.credential_statements
            { id := s.id, statement := statement,
              registered_by := s.registered_by,
              credential_subject := subject } }
  | .CredentialDsseRegistration s =>
      { db with
          dsse_statements := insertOrIgnore (fun r => r.id)
            db.dsse_statements
            { id := s.id, statement := statement,
              registered_by := s.registered_by } }
  | .DidRegistration s =>
      { db with
          did_statements := insertOrIgnore (fun r => r.id)
            db.did_statements
            { id := s.get_id, statement := statement,
              registered_by := s.get_registered_by,
              type_ := s.get_type, did := s.get_did } }
  | .GovernanceRegistration s =>
      { db with
          governance_statements := insertOrIgnore (fun r => r.id)
            db.governance_statements
            { id := s.id, statement := statement,
              registered_by := s.registered_by, subject := s.subject,
              document := s.document } }
  | _ => db

/-- Classification used by the `register_statement` dispatch: `true` for
the five variants handled by `register_global_statement`. -/
def Statement.isGlobal : Statement → Bool
  | .CredentialSigstoreBundleRegistration _ => true
  | .CredentialRegistration _ => true
  | .DidRegistration _ => true
  | .GovernanceRegistration _ => true
  | .CredentialDsseRegistration _ => true
  | _ => false

/-- Model of `IStatementIdx::register_statement` for the SQLite graph
indexer. The source returns `Result<()>`; every reachable path returns
`Ok`, and the only possible errors are storage-transport failures, which
are outside the model, so the `Except` here has no error branch. -/
def GraphDB.register_statement (db : GraphDB) (statement : Statement)
    (graph_id : Option String) : Except String GraphDB :=
  if statement.isGlobal then
    .ok (db.register_global_statement statement)
  else
    .ok (db.register_graph_statement statement graph_id)

/-- Model of `create_graph`: a plain `INSERT` into `graphs`, which fails
on a duplicate primary key. -/
def GraphDB.create_graph (db : GraphDB) (graph_id : String) (name : String)
    (parent_id : Option String) : Except String GraphDB :=
  if db.graphs.any (fun g => g.graph_id = graph_id) then
    .error "UNIQUE constraint failed: graphs.graph_id"
  else
    .ok { db with graphs := db.graphs ++
      [{ graph_id := graph_id, name := name, parent_id := parent_id }] }

/-! ## Graph retrieval

Model of `retrieve_graph` and its SQL queries. Each `LEFT JOIN` is the
`leftJoin` combinator below; `COALESCE` is the first non-`none` value;
`WHERE x IN (...)` with a `NULL` key is not-true and drops the row. The
`SELECT DISTINCT` of the related-statement query is not modelled: the
rows feed a map keyed by statement id, so duplicate rows are observably
irrelevant. `ORDER BY level` is realized by generating the hierarchy rows
in ascending level order. -/

/-- SQL LEFT JOIN of a row list against a match function: a row with no
matches survives once, paired with `none`. -/
def leftJoin {α β : Type} (rows : List α) (cond : α → List β) :
    List (α × Option β) :=
  rows.flatMap (fun a =>
    match cond a with
    | [] => [(a, none)]
    | bs => bs.map (fun b => (a, some b)))

/-- SQL COALESCE: the first non-NULL value. -/
def coalesce {α : Type} (l : List (Option α)) : Option α :=
  (l.filterMap id).head?

/-- Model of `StatementRow` (`lineage/graph_indexer/row_types.rs`): the
four columns a retrieval query may produce. A `none` in `statement`
models a SQL NULL in that non-optional column, which fails to decode. -/
structure SqlStatementRow where
  statement : Option Statement
  metadata : Option Statement
  vc : Option Statement
  did : Option Statement
deriving DecidableEq

/-- Insert-or-overwrite into an association-list model of the
`HashMap<String, Statement>` used by `rows_to_statements`. -/
def upsert (m : List (String × Statement)) (k : String) (v : Statement) :
    List (String × Statement) :=
  if m.any (fun p => p.1 = k) then
    m.map (fun p => if p.1 = k then (k, v) else p)
  else
    m ++ [(k, v)]

/-- Model of `HashMap::extend`: insert every entry of `m2` into `m1`,
overwriting on key collision. -/
def extendMap (m1 m2 : List (String × Statement)) :
    List (String × Statement) :=
  m2.foldl (fun m p => upsert m p.1 p.2) m1

/-- Insert an optional decoded statement into the map (the `if let
Some(...)` branches of `rows_to_statements`), keyed by its id. -/
def optInsert (m : List (String × Statement)) (o : Option Statement) :
    List (String × Statement) :=
  match o with
  | some s => upsert m s.get_id s
  | none => m

/-- Decoding of one row of a retrieval query into the statement map
(loop body of `rows_to_statements`): the `statement` column is decoded
unconditionally (a NULL there is a decode error), the optional
`metadata`, `vc` and `did` columns are inserted when non-NULL; every
insert is keyed by the decoded statement id. -/
def rowInsert (m : List (String × Statement)) (row : SqlStatementRow) :
    Except String (List (String × Statement)) :=
  match row.statement with
  | none => .error "error decoding column statement: unexpected null"
  | some s =>
      .ok (optInsert (optInsert (optInsert (upsert m s.get_id s)
        row.metadata) row.vc) row.did)

/-- Model of `rows_to_statements` (`lineage/graph_indexer/sql_indexer.rs`):
decode every row into the statement map, keyed by `get_id`. -/
def rows_to_statements (rows : List SqlStatementRow) :
    Except String (List (String × Statement)) :=
  rows.foldlM rowInsert []

/-- One step of a chain of LEFT JOINs over an accumulating row record:
`cond` lists the matches of the join condition, `set` stores the matched
row (or `none`) into the record. -/
def joinStep {ρ β : Type} (rows : List ρ) (cond : ρ → List β)
    (set : ρ → Option β → ρ) : List ρ :=
  rows.flatMap (fun r =>
    match cond r with
    | [] => [set r none]
    | bs => bs.map (fun b => set r (some b)))

/-- Accumulating row of the computation query of `retrieve_graph`. -/
structure ComputeJoinRow where
  s : StmtRow
  vc : Option CredentialRow
  metadata : Option MetadataRow
  did : Option DidRow
deriving DecidableEq

/-- FROM/JOIN base of the computation query of `retrieve_graph`:
computation statements joined through `statement_graph_link` to the
requested graph. -/
def GraphDB.computeBase (db : GraphDB) (gid : String) :
    List ComputeJoinRow :=
  db.computation_statements.flatMap
    (fun s => db.statement_graph_link.flatMap (fun l =>
      if l.statement_id = s.id then
        (db.graphs.filter (fun g =>
          l.graph_id = g.graph_id ∧ g.graph_id = gid)).map
          (fun _ => ⟨s, none, none, none⟩)
      else []))

/-- LEFT JOIN of the computation query pulling the credential whose
subject is the computation id. -/
def GraphDB.computeJ1 (db : GraphDB) (gid : String) :
    List ComputeJoinRow :=
  joinStep (db.computeBase gid)
    (fun r => db.credential_statements.filter (fun vc =>
      vc.credential_subject = r.s.id))
    (fun r b => { r with vc := b })

/-- LEFT JOIN of the computation query pulling the metadata whose
subject is the computation id. -/
def GraphDB.computeJ2 (db : GraphDB) (gid : String) :
    List ComputeJoinRow :=
  joinStep (db.computeJ1 gid)
    (fun r => db.metadata_statements.filter (fun m => m.subject = r.s.id))
    (fun r b => { r with metadata := b })

/-- LEFT JOIN of the computation query pulling the DID matching
`registered_by`. -/
def GraphDB.computeJ3 (db : GraphDB) (gid : String) :
    List ComputeJoinRow :=
  joinStep (db.computeJ2 gid)
    (fun r => db.did_statements.filter (fun d =>
      r.s.registered_by = d.did))
    (fun r b => { r with did := b })

/-- Rows of the computation query of `retrieve_graph`: computation
statements joined to the requested graph, with LEFT JOINs pulling the
credential whose subject is the computation id, the metadata whose
subject is the computation id and the DID matching `registered_by`. -/
def GraphDB.computeRows (db : GraphDB) (gid : String) :
    List SqlStatementRow :=
  (db.computeJ3 gid).map (fun r =>
    ⟨some r.s.statement, r.metadata.map (fun m => m.statement),
     r.vc.map (fun vc => vc.statement), r.did.map (fun d => d.statement)⟩)

/-- Model of `collect_subjects`: the loop of `retrieve_graph` that
extends `subjects` with the input and the output of every computation
statement parsed from the computation query. -/
def collect_subjects (stmts : List (String × Statement)) : List String :=
  stmts.flatMap (fun p =>
    match p.2 with
    | .ComputationRegistration s =>
        s.input.to_vec_string ++ s.output.to_vec_string
    | _ => [])

/-- One expansion round of the recursive `graph_hierarchy` CTE: join the
parent pointer of every frontier row back into `graphs`. A NULL parent
matches nothing. -/
def hierarchyStep (graphs : List GraphRow) (frontier : List (GraphRow × Nat)) :
    List (GraphRow × Nat) :=
  frontier.flatMap (fun gh =>
    match gh.1.parent_id with
    | some pid =>
        (graphs.filter (fun g => g.graph_id = pid)).map
          (fun g => (g, gh.2 + 1))
    | none => [])

/-- Accumulate the CTE rounds until the frontier is empty or the fuel
runs out. SQLite would loop forever on a cyclic parent chain; the model
bounds the recursion by the fuel, which the caller sets above the longest
possible acyclic chain. -/
def hierarchyRounds (graphs : List GraphRow) :
    Nat → List (GraphRow × Nat) → List (GraphRow × Nat)
  | 0, _ => []
  | fuel + 1, frontier =>
      if frontier.isEmpty then []
      else frontier ++ hierarchyRounds graphs fuel (hierarchyStep graphs frontier)

/-- Model of the `graph_hierarchy` recursive CTE of `retrieve_graph`:
the requested graph at level 0, then one round per parent hop, in
ascending level order. -/
def graphHierarchy (graphs : List GraphRow) (gid : String) :
    List (GraphRow × Nat) :=
  hierarchyRounds graphs (graphs.length + 1)
    ((graphs.filter (fun g => g.graph_id = gid)).map (fun g => (g, 0)))

/-- Accumulating row of the related-statement query of
`retrieve_graph`. -/
structure RelatedJoinRow where
  graph : GraphRow
  level : Nat
  link : Option LinkRow
  data : Option StmtRow
  dss : Option DataSubjectRow
  metadata : Option MetadataRow
  storage : Option StorageRow
  association : Option AssociationStmtRow
  entity : Option StmtRow
  ess : Option EntitySubjectRow
deriving DecidableEq

/-- FROM base of the related-statement query of `retrieve_graph`: one
row per graph of the `graph_hierarchy` ancestor chain. -/
def GraphDB.relatedBase (db : GraphDB) (gid : String) :
    List RelatedJoinRow :=
  (graphHierarchy db.graphs gid).map
    (fun g => ⟨g.1, g.2, none, none, none, none, none, none, none, none⟩)

/-- JOIN of `statement_graph_link` on the graph id of the hierarchy
row. -/
def GraphDB.relatedJ1 (db : GraphDB) (gid : String) :
    List RelatedJoinRow :=
  joinStep (db.relatedBase gid)
    (fun r => db.statement_graph_link.filter (fun l =>
      r.graph.graph_id = l.graph_id))
    (fun r b => { r with link := b })

/-- LEFT JOIN of `data_statements` on the linked statement id. -/
def GraphDB.relatedJ2 (db : GraphDB) (gid : String) :
    List RelatedJoinRow :=
  joinStep (db.relatedJ1 gid)
    (fun r =>
      match r.link with
      | some l => db.data_statements.filter (fun d => l.statement_id = d.id)
      | none => [])
    (fun r b => { r with data := b })

/-- LEFT JOIN of `data_statement_subjects` on the joined data
statement. -/
def GraphDB.relatedJ3 (db : GraphDB) (gid : String) :
    List RelatedJoinRow :=
  joinStep (db.relatedJ2 gid)
    (fun r =>
      match r.data with
      | some d => db.data_statement_subjects.filter (fun x =>
          d.id = x.statement_id)
      | none => [])
    (fun r b => { r with dss := b })

/-- LEFT JOIN of `metadata_statements` on the linked statement id. -/
def GraphDB.relatedJ4 (db : GraphDB) (gid : String) :
    List RelatedJoinRow :=
  joinStep (db.relatedJ3 gid)
    (fun r =>
      match r.link with
      | some l => db.metadata_statements.filter (fun m =>
          l.statement_id = m.id)
      | none => [])
    (fun r b => { r with metadata := b })

/-- LEFT JOIN of `storage_statements` on the linked statement id. -/
def GraphDB.relatedJ5 (db : GraphDB) (gid : String) :
    List RelatedJoinRow :=
  joinStep (db.relatedJ4 gid)
    (fun r =>
      match r.link with
      | some l => db.storage_statements.filter (fun st =>
          l.statement_id = st.id)
      | none => [])
    (fun r b => { r with storage := b })

/-- LEFT JOIN of `association_statements` on the linked statement
id. -/
def GraphDB.relatedJ6 (db : GraphDB) (gid : String) :
    List RelatedJoinRow :=
  joinStep (db.relatedJ5 gid)
    (fun r =>
      match r.link with
      | some l => db.association_statements.filter (fun a =>
          l.statement_id = a.id)
      | none => [])
    (fun r b => { r with association := b })

/-- LEFT JOIN of `entity_statements` on the linked statement id. -/
def GraphDB.relatedJ7 (db : GraphDB) (gid : String) :
    List RelatedJoinRow :=
  joinStep (db.relatedJ6 gid)
    (fun r =>
      match r.link with
      | some l => db.entity_statements.filter (fun e =>
          l.statement_id = e.id)
      | none => [])
    (fun r b => { r with entity := b })

/-- LEFT JOIN of `entity_statement_subjects` on the joined entity
statement. -/
def GraphDB.relatedJ8 (db : GraphDB) (gid : String) :
    List RelatedJoinRow :=
  joinStep (db.relatedJ7 gid)
    (fun r =>
      match r.entity with
      | some e => db.entity_statement_subjects.filter (fun x =>
          e.id = x.statement_id)
      | none => [])
    (fun r b => { r with ess := b })

/-- The `WHERE COALESCE(...) IN (subjects)` filter of the
related-statement query. -/
def GraphDB.relatedKept (db : GraphDB) (gid : String)
    (subjects : List String) : List RelatedJoinRow :=
  (db.relatedJ8 gid).filter (fun r =>
    match coalesce [r.dss.map (fun x => x.subject),
        r.metadata.map (fun m => m.subject),
        r.storage.map (fun st => st.data),
        r.association.map (fun a => a.association),
        r.association.map (fun a => a.subject),
        r.ess.map (fun x => x.entity)] with
    | some k => subjects.contains k
    | none => false)

/-- Rows of the related-statement query of `retrieve_graph` (the step
that pulls in Data/Metadata/Storage/Association statements linked
anywhere in the ancestor chain). The join chain, the `WHERE COALESCE(...)
IN (subjects)` key and the `SELECT COALESCE(...)` statement column follow
the SQL literally; in particular the selected-statement COALESCE has no
`entity.statement` alternative, and `association.subject` sits after the
NOT NULL `association.association` in the key COALESCE. -/
def GraphDB.relatedRows (db : GraphDB) (gid : String)
    (subjects : List String) : List SqlStatementRow :=
  (db.relatedKept gid subjects).map (fun r =>
    ⟨coalesce [r.data.map (fun d => d.statement),
        r.metadata.map (fun m => m.statement),
        r.storage.map (fun st => st.statement),
        r.association.map (fun a => a.statement)],
     none, none, none⟩)

/-- Rows of the credential query of `get_global_statements`: credentials
whose `credential_subject` is among the gathered statement ids. -/
def GraphDB.vcRowsFor (db : GraphDB) (credential_subjects : List String) :
    List SqlStatementRow :=
  (db.credential_statements.filter (fun vc =>
    credential_subjects.contains vc.credential_subject)).map
    (fun vc => ⟨some vc.statement, none, none, none⟩)

/-- Rows of the DID query of `get_global_statements`: DID statements
whose `did` is among the gathered `registered_by` values, LEFT JOINed
with their own metadata (`did = metadata.subject`) and credential
(`did.id = credential_subject`); the row reuses the accumulating
computation-row record, stashing the DID row in its `did` slot. -/
def GraphDB.didRowsFor (db : GraphDB) (dids : List String) :
    List SqlStatementRow :=
  let base : List ComputeJoinRow := (db.did_statements.filter
    (fun d => dids.contains d.did)).map
    (fun d => ⟨⟨d.id, d.statement, d.registered_by⟩, none, none, some d⟩)
  let j1 := joinStep base
    (fun r =>
      match r.did with
      | some d => db.metadata_statements.filter (fun m => d.did = m.subject)
      | none => [])
    (fun r b => { r with metadata := b })
  let j2 := joinStep j1
    (fun r =>
      match r.did with
      | some d => db.credential_statements.filter (fun vc =>
          d.id = vc.credential_subject)
      | none => [])
    (fun r b => { r with vc := b })
  j2.map (fun r =>
    ⟨some r.s.statement, r.metadata.map (fun m => m.statement),
     r.vc.map (fun vc => vc.statement), none⟩)

/-- Model of `get_global_statements`: pull in every credential whose
`credential_subject` is the id of an already-gathered statement, and
every DID matching a gathered `registered_by` together with its own
metadata (by subject) and credential (by subject id). The `HashSet`s of
dids and credential subjects are modelled as lists (only membership is
observed). -/
def GraphDB.get_global_statements (db : GraphDB)
    (stmts : List (String × Statement)) :
    Except String (List (String × Statement)) :=
  match rows_to_statements
    (db.vcRowsFor (stmts.map (fun p => p.2.get_id))) with
  | .error e => .error e
  | .ok vcStatements =>
      if (stmts.map (fun p => p.2.get_registered_by)).isEmpty then
        .ok (extendMap stmts vcStatements)
      else
        match rows_to_statements
          (db.didRowsFor (stmts.map (fun p => p.2.get_registered_by)))
          with
        | .error e => .error e
        | .ok didStatements =>
            .ok (extendMap (extendMap stmts vcStatements) didStatements)

/-- Model of `lineage/models/graph.rs` `Graph` as populated by
`retrieve_graph` (graph ids as strings). -/
structure Graph where
  name : String
  id : String
  parent : Option String
  statements : Option (List Statement)
deriving DecidableEq

/-- Model of `retrieve_graph` (`lineage/graph_indexer/sql_lite.rs`):
load the graph record (not found is an error), return it bare when no
computation statement is linked, otherwise gather the computation rows,
collect their input/output identifiers, pull in the related statements
of the ancestor chain and the global statements, and return the map
values. -/
def GraphDB.retrieve_graph (db : GraphDB) (gid : String) :
    Except String Graph :=
  match db.graphs.find? (fun g => g.graph_id = gid) with
  | none =>
      .error "no rows returned by a query that expected at least one"
  | some graphRow =>
      if (db.computeRows gid).isEmpty then
        .ok { name := graphRow.name, id := gid,
              parent := graphRow.parent_id, statements := none }
      else
        match rows_to_statements (db.computeRows gid) with
        | .error e => .error e
        | .ok statements =>
            match rows_to_statements
              (db.relatedRows gid (collect_subjects statements)) with
            | .error e => .error e
            | .ok related =>
                match db.get_global_statements
                  (extendMap statements related) with
                | .error e => .error e
                | .ok full =>
                    .ok { name := graphRow.name, id := gid,
                          parent := graphRow.parent_id,
                          statements :=
                            some (full.map (fun p => p.2)) }

/-- Model of the graph indexer `get_statement_by_id`
(`lineage/graph_indexer/sql_lite.rs`), whose body is `unimplemented!()`;
the panic is modelled as an error. -/
def GraphDB.get_statement_by_id (_db : GraphDB) (_id : String) :
    Except String (Option Statement) :=
  .error "not implemented"

/-- Rust consecutive-duplicate removal (`Vec::dedup`). -/
def dedupConsecutive : List String → List String
  | [] => []
  | [a] => [a]
  | a :: b :: rest =>
      if a = b then dedupConsecutive (b :: rest)
      else a :: dedupConsecutive (b :: rest)

/-- Model of `get_associations_for_subject`: select the association
column of every association row with the given subject, sort, and dedup
consecutive duplicates. Rust's stable sort is modelled by insertion sort,
which produces the same (unique) sorted list. -/
def GraphDB.get_associations_for_subject (db : GraphDB) (subject : String) :
    List String :=
  let associations := (db.association_statements.filter
    (fun r => r.subject = subject)).map (fun r => r.association)
  dedupConsecutive (List.insertionSort (fun a b => a ≤ b) associations)

/-- Model of `get_subjects_for_association`, symmetric to
`get_associations_for_subject`. -/
def GraphDB.get_subjects_for_association (db : GraphDB)
    (association : String) : List String :=
  let subjects := (db.association_statements.filter
    (fun r => r.association = association)).map (fun r => r.subject)
  dedupConsecutive (List.insertionSort (fun a b => a ≤ b) subjects)

/-! ## The attribute store and the filter compiler

Model of `lineage/indexer/sql_lite.rs` and the filter language of
`lineage/indexer/statement_filter.rs`. The compiled `WHERE` clauses are
modelled by an evaluator that follows the generated SQL under SQLite's
semantics: three-valued logic with `NULL` as `none`, `json_extract`
mapping a stored JSON string to a TEXT value and a stored JSON integer to
an INTEGER value (JSON booleans become the integers 1/0), and comparisons
that never equate values of different storage classes. REAL values do not
appear (JSON numbers are modelled as integers, see the file header). -/

/-- Attribute values as stored in the `attributes` JSON object. -/
inductive JsonVal where
  | null : JsonVal
  | bool (b : Bool) : JsonVal
  | num (n : Int) : JsonVal
  | str (s : String) : JsonVal
deriving DecidableEq

/-- An SQLite value: NULL, an INTEGER or a TEXT. -/
inductive SqlVal where
  | null : SqlVal
  | integer (n : Int) : SqlVal
  | text (s : String) : SqlVal
deriving DecidableEq

/-- SQLite `json_extract(attributes, ...)` on a top-level key: a missing
key is SQL NULL, a JSON number becomes an INTEGER, a JSON string a TEXT,
a JSON boolean the integer 1 or 0, a JSON null SQL NULL. -/
def json_extract (attributes : List (String × JsonVal)) (key : String) :
    SqlVal :=
  match attributes.find? (fun kv => kv.1 = key) with
  | none => .null
  | some kv =>
      match kv.2 with
      | .null => .null
      | .bool b => .integer (if b then 1 else 0)
      | .num n => .integer n
      | .str s => .text s

/-- SQLite `json_type(attributes, ...)` on a top-level key: NULL for a
missing key, otherwise the JSON type name. -/
def json_type (attributes : List (String × JsonVal)) (key : String) :
    Option String :=
  match attributes.find? (fun kv => kv.1 = key) with
  | none => none
  | some kv =>
      match kv.2 with
      | .null => some "null"
      | .bool b => some (if b then "true" else "false")
      | .num _ => some "integer"
      | .str _ => some "text"

/-- SQLite `=` between two values: NULL propagates, values of different
storage classes are never equal, values of the same class compare
normally. -/
def sqliteEq : SqlVal → SqlVal → Option Bool
  | .null, _ => none
  | _, .null => none
  | .integer a, .integer b => some (a = b)
  | .text a, .text b => some (a = b)
  | .integer _, .text _ => some false
  | .text _, .integer _ => some false

/-- SQLite `<`: NULL propagates; across storage classes every INTEGER
sorts before every TEXT. -/
def sqliteLt : SqlVal → SqlVal → Option Bool
  | .null, _ => none
  | _, .null => none
  | .integer a, .integer b => some (a < b)
  | .text a, .text b => some (a < b)
  | .integer _, .text _ => some true
  | .text _, .integer _ => some false

/-- SQLite `>`: NULL propagates; across storage classes every TEXT sorts
after every INTEGER. -/
def sqliteGt : SqlVal → SqlVal → Option Bool
  | .null, _ => none
  | _, .null => none
  | .integer a, .integer b => some (a > b)
  | .text a, .text b => some (a > b)
  | .integer _, .text _ => some false
  | .text _, .integer _ => some true

/-- SQLite three-valued AND. -/
def sqlAnd : Option Bool → Option Bool → Option Bool
  | some false, _ => some false
  | _, some false => some false
  | some true, some true => some true
  | _, _ => none

/-- SQLite three-valued OR. -/
def sqlOr : Option Bool → Option Bool → Option Bool
  | some true, _ => some true
  | _, some true => some true
  | some false, some false => some false
  | _, _ => none

/-- Literals the filter parser can place on the right-hand side of a
comparison: only CEL string and numeric literals survive
`try_from_cel_expr` (anything else is a parse error), so the model
restricts the payload of `AttributeEquals` to those two shapes. -/
inductive FilterLit where
  | str (s : String) : FilterLit
  | num (n : Int) : FilterLit
deriving DecidableEq

/-- The SQLite value bound for a filter literal by `retrieve_statements`
(`Value::String` binds TEXT, `Value::Number` binds an i64 INTEGER). -/
def FilterLit.bind : FilterLit → SqlVal
  | .str s => .text s
  | .num n => .integer n

/-- Model of the `StatementFilter` tree
(`lineage/indexer/statement_filter.rs`); the compare payloads of the
`LessThan`/`GreaterThan` nodes are numeric by the parsing contract. -/
inductive StatementFilter where
  | statementTypeEquals (t : String) : StatementFilter
  | attributeEquals (key : String) (value : FilterLit) : StatementFilter
  | attributeLessThan (key : String) (n : Int) : StatementFilter
  | attributeGreaterThan (key : String) (n : Int) : StatementFilter
  | and (filters : List StatementFilter) : StatementFilter
  | or (filters : List StatementFilter) : StatementFilter
  | not (f : StatementFilter) : StatementFilter

/-- Row of the attribute store `statements` table. -/
structure AttrRow where
  statement_id : String
  statement_type : String
  statement_data : Statement
  attributes : List (String × JsonVal)
deriving DecidableEq

/-- The attribute store state. -/
def AttrDB : Type := List AttrRow

/-- Evaluation of the `WHERE` clause produced by
`build_indexed_where_clause` on one row, under SQLite semantics:

* `StatementTypeEquals` compiles to `statement_type = ?` (two TEXTs);
* `AttributeEquals` compiles to `json_extract(attributes, key) = ?`;
* `AttributeGreaterThan`/`AttributeLessThan` compile to
  `json_type(attributes, key) IN (integer, real) AND
  json_extract(attributes, key) <op> ?`;
* `And`/`Or` join the parenthesized sub-clauses (the parser always
  supplies at least two; the empty fold default is unreachable);
* `Not` wraps the sub-clause in `NOT (...)`. -/
def evalFilter (row : AttrRow) : StatementFilter → Option Bool
  | .statementTypeEquals t => some (row.statement_type = t)
  | .attributeEquals key v =>
      sqliteEq (json_extract row.attributes key) v.bind
  | .attributeLessThan key n =>
      sqlAnd
        ((json_type row.attributes key).map
          (fun t => t = "integer" ∨ t = "real"))
        (sqliteLt (json_extract row.attributes key) (.integer n))
  | .attributeGreaterThan key n =>
      sqlAnd
        ((json_type row.attributes key).map
          (fun t => t = "integer" ∨ t = "real"))
        (sqliteGt (json_extract row.attributes key) (.integer n))
  | .and filters =>
      (filters.attach.map (fun f => evalFilter row f.1)).foldl sqlAnd
        (some true)
  | .or filters =>
      (filters.attach.map (fun f => evalFilter row f.1)).foldl sqlOr
        (some false)
  | .not f => (evalFilter row f).map (fun b => !b)
termination_by f => sizeOf f
decreasing_by
  all_goals simp_wf
  all_goals (have h := List.sizeOf_lt_of_mem f.2; omega)

/-- Model of `retrieve_statements`: keep exactly the rows on which the
compiled `WHERE` clause evaluates to true (SQL drops NULL and false),
returning the statements and the per-id attribute maps. -/
def AttrDB.retrieve_statements (db : AttrDB)
    (filter : Option StatementFilter) :
    List Statement × List (String × List (String × JsonVal)) :=
  let kept := match filter with
    | none => db
    | some f => db.filter (fun row => (evalFilter row f).getD false)
  (kept.map (fun r => r.statement_data),
   kept.map (fun r => (r.statement_id, r.attributes)))

/-- INSERT OR REPLACE keyed on `statement_id`. -/
def insertOrReplace (table : List AttrRow) (row : AttrRow) : List AttrRow :=
  if table.any (fun r => r.statement_id = row.statement_id) then
    table.map (fun r => if r.statement_id = row.statement_id then row else r)
  else
    table ++ [row]

/-- Model of the attribute store `register_statement`: extract the id and
the type from the serialized statement and INSERT OR REPLACE the row. -/
def AttrDB.register_statement (db : AttrDB) (statement : Statement)
    (attributes : List (String × JsonVal)) : Except String AttrDB :=
  .ok (insertOrReplace db
    { statement_id := statement.get_id,
      statement_type := statement.get_type_string,
      statement_data := statement, attributes := attributes })

/-- Columns of the attribute store `statements` table, as created by
`SqlLite::new`. -/
def statements_table_columns : List String :=
  ["statement_id", "statement_type", "statement_data", "attributes",
   "created_at"]

/-- Model of the attribute store `get_statement_by_id`: the issued query
is `SELECT statement FROM statements WHERE statement_id = ?1`, but the
table has no column named `statement` (the body column is
`statement_data`), so preparing the statement fails for every input; the
then-branch gives the semantics the query would have if the column
existed. -/
def AttrDB.get_statement_by_id (db : AttrDB) (id : String) :
    Except String (Option Statement) :=
  if statements_table_columns.contains "statement" then
    .ok ((db.find? (fun r => r.statement_id = id)).map
      (fun r => r.statement_data))
  else
    .error "no such column: statement"

/-! ## Support lemmas -/

/-- The only error `format_cids` can produce is the empty-list error. -/
theorem format_cids_error_eq (l : List String) (e : String)
    (h : format_cids l = .error e) : e = "CID list must not be empty." := by
  unfold format_cids at h
  rcases hm : (l.filter (fun s => !s.isEmpty)).map prepend_urn_cid with
    _ | ⟨a, _ | ⟨b, t⟩⟩ <;> rw [hm] at h <;> simp_all

/-- A reference list that is empty or holds only empty strings filters
to nothing. -/
theorem filter_nonEmpty_eq_nil (l : List String)
    (h : l = [] ∨ ∀ s ∈ l, s = "") :
    l.filter (fun s => !s.isEmpty) = [] := by
  cases h with
  | inl h => subst h; rfl
  | inr h =>
      rw [List.filter_eq_nil_iff]
      intro a ha
      have := h a ha
      subst this
      decide

/-- Membership is preserved by consecutive-duplicate removal. -/
theorem dedupConsecutive_mem (l : List String) (a : String) :
    a ∈ dedupConsecutive l ↔ a ∈ l := by
  induction l with
  | nil => simp [dedupConsecutive]
  | cons b t ih =>
      cases t with
      | nil => simp [dedupConsecutive]
      | cons c t2 =>
          by_cases h : b = c
          · subst h
            rw [dedupConsecutive, if_pos rfl]
            rw [ih]
            simp
          · rw [dedupConsecutive, if_neg h]
            simp only [List.mem_cons] at ih ⊢
            rw [ih]

/-- Removing consecutive duplicates from a `≤`-sorted list yields a
`<`-sorted list. -/
theorem dedupConsecutive_sorted_lt (l : List String)
    (h : l.Sorted (· ≤ ·)) : (dedupConsecutive l).Sorted (· < ·) := by
  induction l with
  | nil => simp [dedupConsecutive]
  | cons b t ih =>
      cases t with
      | nil => simp [dedupConsecutive]
      | cons c t2 =>
          rw [List.sorted_cons] at h
          obtain ⟨hb, htail⟩ := h
          by_cases hbc : b = c
          · subst hbc
            rw [dedupConsecutive, if_pos rfl]
            exact ih htail
          · rw [dedupConsecutive, if_neg hbc]
            rw [List.sorted_cons]
            refine ⟨?_, ih htail⟩
            intro x hx
            rw [dedupConsecutive_mem] at hx
            have hblec : b ≤ c := hb c (by simp)
            rcases List.mem_cons.mp hx with hxc | hxt2
            · subst hxc; exact lt_of_le_of_ne hblec hbc
            · have hcx : c ≤ x := (List.sorted_cons.mp htail).1 x hxt2
              exact lt_of_lt_of_le (lt_of_le_of_ne hblec hbc) hcx

/-! ## Properties of the statement map

Invariants of the association-list model of the retrieval statement map:
keys are pairwise distinct, every entry is keyed by its own statement
id, and every stored statement originates from the decoded rows. -/

/-- The statements carried by one retrieval row. -/
def rowStatements (row : SqlStatementRow) : List Statement :=
  row.statement.toList ++ row.metadata.toList ++ row.vc.toList ++
    row.did.toList

/-- Well-formedness of the statement map: keys are pairwise distinct and
every entry is keyed by its statement's id. -/
def MapOk (m : List (String × Statement)) : Prop :=
  (m.map Prod.fst).Nodup ∧ ∀ p ∈ m, p.2.get_id = p.1

theorem mapOk_nil : MapOk [] := ⟨List.nodup_nil, by simp⟩

theorem any_key_iff (m : List (String × Statement)) (k : String) :
    (m.any (fun p => p.1 = k) = true) ↔ k ∈ m.map Prod.fst := by
  simp only [List.any_eq_true, List.mem_map, decide_eq_true_eq]

theorem upsert_keys (m : List (String × Statement)) (k : String)
    (v : Statement) :
    (upsert m k v).map Prod.fst =
      if m.any (fun p => p.1 = k) then m.map Prod.fst
      else m.map Prod.fst ++ [k] := by
  unfold upsert
  by_cases h : m.any (fun p => p.1 = k)
  · rw [if_pos h, if_pos h, List.map_map]
    apply List.map_congr_left
    intro p _
    by_cases hp : p.1 = k
    · simp [hp]
    · simp [hp]
  · rw [if_neg h, if_neg h]
    simp

theorem mem_upsert_keys_self (m : List (String × Statement)) (k : String)
    (v : Statement) : k ∈ (upsert m k v).map Prod.fst := by
  rw [upsert_keys]
  by_cases h : m.any (fun p => p.1 = k)
  · rw [if_pos h]
    exact (any_key_iff m k).mp h
  · rw [if_neg h]
    simp

theorem mem_upsert_keys_mono (m : List (String × Statement))
    (k k' : String) (v : Statement) (h : k' ∈ m.map Prod.fst) :
    k' ∈ (upsert m k v).map Prod.fst := by
  rw [upsert_keys]
  by_cases hk : m.any (fun p => p.1 = k)
  · rwa [if_pos hk]
  · rw [if_neg hk]
    exact List.mem_append_left _ h

theorem upsert_MapOk {m : List (String × Statement)} {k : String}
    {v : Statement} (h : MapOk m) (hv : v.get_id = k) :
    MapOk (upsert m k v) := by
  constructor
  · rw [upsert_keys]
    by_cases hk : m.any (fun p => p.1 = k)
    · rw [if_pos hk]
      exact h.1
    · rw [if_neg hk]
      rw [List.nodup_append]
      refine ⟨h.1, List.nodup_singleton k, ?_⟩
      intro a ha hb
      rw [List.mem_singleton] at hb
      subst hb
      exact hk ((any_key_iff m a).mpr ha)
  · intro p hp
    unfold upsert at hp
    by_cases hk : m.any (fun p => p.1 = k)
    · rw [if_pos hk] at hp
      obtain ⟨q, hq, hpq⟩ := List.mem_map.mp hp
      by_cases hq1 : q.1 = k
      · rw [if_pos hq1] at hpq
        subst hpq
        exact hv
      · rw [if_neg hq1] at hpq
        subst hpq
        exact h.2 q hq
    · rw [if_neg hk] at hp
      rcases List.mem_append.mp hp with hm | hs
      · exact h.2 p hm
      · rw [List.mem_singleton] at hs
        subst hs
        exact hv

theorem mem_upsert_elim {m : List (String × Statement)} {k : String}
    {v : Statement} {p : String × Statement} (hp : p ∈ upsert m k v) :
    p = (k, v) ∨ p ∈ m := by
  unfold upsert at hp
  by_cases hk : m.any (fun p => p.1 = k)
  · rw [if_pos hk] at hp
    obtain ⟨q, hq, hpq⟩ := List.mem_map.mp hp
    by_cases hq1 : q.1 = k
    · rw [if_pos hq1] at hpq
      exact Or.inl hpq.symm
    · rw [if_neg hq1] at hpq
      exact Or.inr (hpq ▸ hq)
  · rw [if_neg hk] at hp
    rcases List.mem_append.mp hp with hm | hs
    · exact Or.inr hm
    · rw [List.mem_singleton] at hs
      exact Or.inl hs

theorem mem_upsert_self (m : List (String × Statement)) (k : String)
    (v : Statement) : (k, v) ∈ upsert m k v := by
  unfold upsert
  by_cases hk : m.any (fun p => p.1 = k)
  · rw [if_pos hk]
    obtain ⟨q, hq, hq1⟩ := by
      simpa only [List.any_eq_true, decide_eq_true_eq] using hk
    refine List.mem_map.mpr ⟨q, hq, ?_⟩
    rw [if_pos hq1]
  · rw [if_neg hk]
    simp

theorem mapOk_value_eq {m : List (String × Statement)} {k : String}
    {v1 v2 : Statement} (h : MapOk m) (h1 : (k, v1) ∈ m)
    (h2 : (k, v2) ∈ m) : v1 = v2 := by
  have := List.inj_on_of_nodup_map h.1 h1 h2 rfl
  exact congrArg Prod.snd this

theorem mem_keys_iff (m : List (String × Statement)) (k : String) :
    k ∈ m.map Prod.fst ↔ ∃ v, (k, v) ∈ m := by
  rw [List.mem_map]
  constructor
  · rintro ⟨p, hp, hk⟩
    exact ⟨p.2, by rwa [show (k, p.2) = p from Prod.ext hk.symm rfl]⟩
  · rintro ⟨v, hv⟩
    exact ⟨(k, v), hv, rfl⟩

theorem optInsert_MapOk {m : List (String × Statement)}
    {o : Option Statement} (h : MapOk m) : MapOk (optInsert m o) := by
  cases o with
  | none => exact h
  | some s => exact upsert_MapOk h rfl

theorem mem_optInsert_elim {m : List (String × Statement)}
    {o : Option Statement} {p : String × Statement}
    (hp : p ∈ optInsert m o) :
    (∃ s, o = some s ∧ p = (s.get_id, s)) ∨ p ∈ m := by
  cases o with
  | none => exact Or.inr hp
  | some s =>
      rcases mem_upsert_elim hp with he | hm
      · exact Or.inl ⟨s, rfl, he⟩
      · exact Or.inr hm

theorem mem_optInsert_keys_mono {m : List (String × Statement)}
    {o : Option Statement} {k : String} (h : k ∈ m.map Prod.fst) :
    k ∈ (optInsert m o).map Prod.fst := by
  cases o with
  | none => exact h
  | some s => exact mem_upsert_keys_mono _ _ _ _ h

theorem rowInsert_MapOk {m m' : List (String × Statement)}
    {row : SqlStatementRow} (h : MapOk m)
    (hok : rowInsert m row = .ok m') : MapOk m' := by
  unfold rowInsert at hok
  cases hs : row.statement with
  | none =>
      rw [hs] at hok
      exact absurd hok (by simp)
  | some s =>
      rw [hs] at hok
      rw [Except.ok.injEq] at hok
      subst hok
      exact optInsert_MapOk (optInsert_MapOk (optInsert_MapOk
        (upsert_MapOk h rfl)))

theorem rowInsert_prov {m m' : List (String × Statement)}
    {row : SqlStatementRow} {S : Statement → Prop}
    (hrow : ∀ s ∈ rowStatements row, S s) (hm : ∀ p ∈ m, S p.2)
    (hok : rowInsert m row = .ok m') : ∀ p ∈ m', S p.2 := by
  unfold rowInsert at hok
  cases hs : row.statement with
  | none =>
      rw [hs] at hok
      exact absurd hok (by simp)
  | some s =>
      rw [hs] at hok
      rw [Except.ok.injEq] at hok
      subst hok
      intro p hp
      rcases mem_optInsert_elim hp with ⟨d, hd, hpd⟩ | hp
      · subst hpd
        exact hrow d (by simp [rowStatements, hd])
      rcases mem_optInsert_elim hp with ⟨d, hd, hpd⟩ | hp
      · subst hpd
        exact hrow d (by simp [rowStatements, hd])
      rcases mem_optInsert_elim hp with ⟨d, hd, hpd⟩ | hp
      · subst hpd
        exact hrow d (by simp [rowStatements, hd])
      rcases mem_upsert_elim hp with hpd | hp
      · subst hpd
        exact hrow s (by simp [rowStatements, hs])
      · exact hm p hp

theorem rowInsert_keys_mono {m m' : List (String × Statement)}
    {row : SqlStatementRow} {k : String} (h : k ∈ m.map Prod.fst)
    (hok : rowInsert m row = .ok m') : k ∈ m'.map Prod.fst := by
  unfold rowInsert at hok
  cases hs : row.statement with
  | none =>
      rw [hs] at hok
      exact absurd hok (by simp)
  | some s =>
      rw [hs] at hok
      rw [Except.ok.injEq] at hok
      subst hok
      exact mem_optInsert_keys_mono (mem_optInsert_keys_mono
        (mem_optInsert_keys_mono (mem_upsert_keys_mono _ _ _ _ h)))

theorem rowInsert_key_self {m m' : List (String × Statement)}
    {row : SqlStatementRow} {s : Statement} (hs : row.statement = some s)
    (hok : rowInsert m row = .ok m') : s.get_id ∈ m'.map Prod.fst := by
  unfold rowInsert at hok
  rw [hs] at hok
  rw [Except.ok.injEq] at hok
  subst hok
  exact mem_optInsert_keys_mono (mem_optInsert_keys_mono
    (mem_optInsert_keys_mono (mem_upsert_keys_self _ _ _)))

/-- Any invariant preserved by `rowInsert` is preserved by the whole
fold of `rows_to_statements`. -/
theorem foldlM_rowInsert_invariant (P : List (String × Statement) → Prop)
    (rows : List SqlStatementRow) :
    ∀ m0 m, (∀ mi row mi', row ∈ rows → P mi →
      rowInsert mi row = .ok mi' → P mi') → P m0 →
      rows.foldlM rowInsert m0 = .ok m → P m := by
  induction rows with
  | nil =>
      intro m0 m _ h0 hok
      rw [List.foldlM_nil,
        show (pure m0 : Except String _) = Except.ok m0 from rfl,
        Except.ok.injEq] at hok
      exact hok ▸ h0
  | cons r rs ih =>
      intro m0 m hstep h0 hok
      rw [List.foldlM_cons] at hok
      cases h1 : rowInsert m0 r with
      | error e =>
          rw [h1, show ((Except.error e : Except String _) >>=
            fun b => rs.foldlM rowInsert b) = Except.error e from rfl]
            at hok
          exact absurd hok (by simp)
      | ok m1 =>
          rw [h1] at hok
          rw [show ((Except.ok m1 : Except String _) >>=
            fun b => rs.foldlM rowInsert b) = rs.foldlM rowInsert m1
            from rfl] at hok
          exact ih m1 m (fun mi row mi' hrow => hstep mi row mi'
            (List.mem_cons_of_mem r hrow)) (hstep m0 r m1
            (List.mem_cons_self r rs) h0 h1) hok

theorem rows_to_statements_MapOk {rows : List SqlStatementRow}
    {m : List (String × Statement)} (h : rows_to_statements rows = .ok m) :
    MapOk m :=
  foldlM_rowInsert_invariant MapOk rows [] m
    (fun _ _ _ _ hmi hok => rowInsert_MapOk hmi hok) mapOk_nil h

theorem rows_to_statements_prov {rows : List SqlStatementRow}
    {m : List (String × Statement)} {S : Statement → Prop}
    (hrows : ∀ row ∈ rows, ∀ s ∈ rowStatements row, S s)
    (h : rows_to_statements rows = .ok m) : ∀ p ∈ m, S p.2 :=
  foldlM_rowInsert_invariant (fun m => ∀ p ∈ m, S p.2) rows [] m
    (fun mi row mi' hrow hmi hok =>
      rowInsert_prov (hrows row hrow) hmi hok)
    (by simp) h

theorem foldlM_rowInsert_key {row : SqlStatementRow} {s : Statement}
    (rows : List SqlStatementRow) :
    ∀ m0 m, rows.foldlM rowInsert m0 = .ok m → row ∈ rows →
      row.statement = some s → s.get_id ∈ m.map Prod.fst := by
  induction rows with
  | nil =>
      intro m0 m _ hrow _
      exact absurd hrow (by simp)
  | cons r rs ih =>
      intro m0 m h hrow hs
      rw [List.foldlM_cons] at h
      cases h1 : rowInsert m0 r with
      | error e =>
          rw [h1, show ((Except.error e : Except String _) >>=
            fun b => rs.foldlM rowInsert b) = Except.error e from rfl]
            at h
          exact absurd h (by simp)
      | ok m1 =>
          rw [h1] at h
          rw [show ((Except.ok m1 : Except String _) >>=
            fun b => rs.foldlM rowInsert b) = rs.foldlM rowInsert m1
            from rfl] at h
          rcases List.mem_cons.mp hrow with hr | hr
          · subst hr
            exact foldlM_rowInsert_invariant
              (fun m => s.get_id ∈ m.map Prod.fst) rs m1 m
              (fun mi rowi mi' _ hmi hok =>
                rowInsert_keys_mono hmi hok)
              (rowInsert_key_self hs h1) h
          · exact ih m1 m h hr hs

theorem rows_to_statements_key {rows : List SqlStatementRow}
    {m : List (String × Statement)} {row : SqlStatementRow}
    {s : Statement} (h : rows_to_statements rows = .ok m)
    (hrow : row ∈ rows) (hs : row.statement = some s) :
    s.get_id ∈ m.map Prod.fst :=
  foldlM_rowInsert_key rows [] m h hrow hs

theorem rows_to_statements_ok_of_some (rows : List SqlStatementRow)
    (h : ∀ row ∈ rows, row.statement.isSome) :
    ∃ m, rows_to_statements rows = .ok m := by
  unfold rows_to_statements
  suffices hgen : ∀ m0, ∃ m, rows.foldlM rowInsert m0 = .ok m from
    hgen []
  induction rows with
  | nil =>
      intro m0
      exact ⟨m0, rfl⟩
  | cons r rs ih =>
      intro m0
      cases hs : r.statement with
      | none =>
          exact absurd (h r (by simp)) (by simp [hs])
      | some s =>
          obtain ⟨m, hm⟩ := ih (fun row hrow =>
            h row (List.mem_cons_of_mem r hrow))
            (optInsert (optInsert (optInsert (upsert m0 s.get_id s)
              r.metadata) r.vc) r.did)
          refine ⟨m, ?_⟩
          rw [List.foldlM_cons]
          rw [show rowInsert m0 r = .ok (optInsert (optInsert (optInsert
            (upsert m0 s.get_id s) r.metadata) r.vc) r.did) by
            unfold rowInsert
            rw [hs]]
          exact hm

theorem extendMap_MapOk {m1 m2 : List (String × Statement)}
    (h1 : MapOk m1) (h2 : ∀ p ∈ m2, p.2.get_id = p.1) :
    MapOk (extendMap m1 m2) := by
  unfold extendMap
  induction m2 generalizing m1 with
  | nil => exact h1
  | cons p t ih =>
      rw [List.foldl_cons]
      exact ih (upsert_MapOk h1 (h2 p (by simp)))
        (fun q hq => h2 q (List.mem_cons_of_mem p hq))

theorem mem_extendMap_elim {m1 m2 : List (String × Statement)}
    {p : String × Statement} (hp : p ∈ extendMap m1 m2) :
    p ∈ m1 ∨ p ∈ m2 := by
  unfold extendMap at hp
  induction m2 generalizing m1 with
  | nil => exact Or.inl hp
  | cons q t ih =>
      rw [List.foldl_cons] at hp
      rcases ih hp with h | h
      · rcases mem_upsert_elim h with he | hm
        · exact Or.inr (by simp [he])
        · exact Or.inl hm
      · exact Or.inr (List.mem_cons_of_mem q h)

theorem extendMap_keys_left {m1 m2 : List (String × Statement)}
    {k : String} (h : k ∈ m1.map Prod.fst) :
    k ∈ (extendMap m1 m2).map Prod.fst := by
  unfold extendMap
  induction m2 generalizing m1 with
  | nil => exact h
  | cons q t ih =>
      rw [List.foldl_cons]
      exact ih (mem_upsert_keys_mono _ _ _ _ h)

theorem extendMap_keys_right {m1 m2 : List (String × Statement)}
    {k : String} (h : k ∈ m2.map Prod.fst) :
    k ∈ (extendMap m1 m2).map Prod.fst := by
  unfold extendMap
  induction m2 generalizing m1 with
  | nil => exact absurd h (by simp)
  | cons q t ih =>
      rw [List.foldl_cons]
      rcases List.mem_map.mp h with ⟨p, hp, hpk⟩
      rcases List.mem_cons.mp hp with hq | ht
      · subst hq
        subst hpk
        exact extendMap_keys_left (mem_upsert_keys_self _ _ _)
      · exact ih (List.mem_map.mpr ⟨p, ht, hpk⟩)

/-! ## Idempotence of INSERT OR IGNORE -/

theorem insertOrIgnore_any_self {ρ κ : Type} [DecidableEq κ]
    (key : ρ → κ) (t : List ρ) (r : ρ) :
    (insertOrIgnore key t r).any (fun x => key x = key r) = true := by
  unfold insertOrIgnore
  by_cases h : t.any (fun x => key x = key r)
  · rwa [if_pos h]
  · rw [if_neg h]
    simp

theorem insertOrIgnore_any_mono {ρ κ : Type} [DecidableEq κ]
    (key : ρ → κ) (t : List ρ) (r : ρ) (P : ρ → Bool)
    (h : t.any P = true) : (insertOrIgnore key t r).any P = true := by
  unfold insertOrIgnore
  by_cases hk : t.any (fun x => key x = key r)
  · rwa [if_pos hk]
  · rw [if_neg hk, List.any_append]
    simp [h]

theorem insertOrIgnore_noop {ρ κ : Type} [DecidableEq κ]
    (key : ρ → κ) (t : List ρ) (r : ρ)
    (h : t.any (fun x => key x = key r) = true) :
    insertOrIgnore key t r = t := by
  unfold insertOrIgnore
  rw [if_pos h]

theorem insertOrIgnore_idem {ρ κ : Type} [DecidableEq κ]
    (key : ρ → κ) (t : List ρ) (r : ρ) :
    insertOrIgnore key (insertOrIgnore key t r) r =
      insertOrIgnore key t r :=
  insertOrIgnore_noop key _ r (insertOrIgnore_any_self key t r)

theorem foldl_insertOrIgnore_any_mono {α ρ κ : Type} [DecidableEq κ]
    (key : ρ → κ) (mk : α → ρ) (l : List α) (t : List ρ) (P : ρ → Bool)
    (h : t.any P = true) :
    (l.foldl (fun acc a => insertOrIgnore key acc (mk a)) t).any P
      = true := by
  induction l generalizing t with
  | nil => exact h
  | cons a t2 ih =>
      rw [List.foldl_cons]
      exact ih _ (insertOrIgnore_any_mono key t (mk a) P h)

theorem foldl_insertOrIgnore_present {α ρ κ : Type} [DecidableEq κ]
    (key : ρ → κ) (mk : α → ρ) (l : List α) (t : List ρ) :
    ∀ a ∈ l, (l.foldl (fun acc a => insertOrIgnore key acc (mk a)) t).any
      (fun x => key x = key (mk a)) = true := by
  induction l generalizing t with
  | nil => simp
  | cons b t2 ih =>
      intro a ha
      rw [List.foldl_cons]
      rcases List.mem_cons.mp ha with hb | ht2
      · subst hb
        exact foldl_insertOrIgnore_any_mono key mk t2 _ _
          (insertOrIgnore_any_self key t (mk a))
      · exact ih _ a ht2

theorem foldl_insertOrIgnore_noop {α ρ κ : Type} [DecidableEq κ]
    (key : ρ → κ) (mk : α → ρ) (l : List α) (t : List ρ)
    (h : ∀ a ∈ l, t.any (fun x => key x = key (mk a)) = true) :
    l.foldl (fun acc a => insertOrIgnore key acc (mk a)) t = t := by
  induction l with
  | nil => rfl
  | cons b t2 ih =>
      rw [List.foldl_cons, insertOrIgnore_noop key t (mk b) (h b (by simp))]
      exact ih (fun a ha => h a (List.mem_cons_of_mem b ha))

theorem foldl_insertOrIgnore_twice {α ρ κ : Type} [DecidableEq κ]
    (key : ρ → κ) (mk : α → ρ) (l : List α) (t : List ρ) :
    l.foldl (fun acc a => insertOrIgnore key acc (mk a))
      (l.foldl (fun acc a => insertOrIgnore key acc (mk a)) t) =
    l.foldl (fun acc a => insertOrIgnore key acc (mk a)) t :=
  foldl_insertOrIgnore_noop key mk l _
    (foldl_insertOrIgnore_present key mk l t)

/-! ## Projections used by the registration claims -/

/-- The statement-body tables of the graph store: everything except the
`statement_graph_link` and `graphs` tables. -/
def GraphDB.statement_tables (db : GraphDB) :
    List StmtRow × List StmtRow × List DataSubjectRow × List MetadataRow ×
    List StorageRow × List StmtRow × List EntitySubjectRow ×
    List AssociationStmtRow × List StmtRow × List CredentialRow ×
    List StmtRow × List DidRow × List GovernanceRow :=
  (db.computation_statements, db.data_statements,
   db.data_statement_subjects, db.metadata_statements,
   db.storage_statements, db.entity_statements,
   db.entity_statement_subjects, db.association_statements,
   db.sigstore_statements, db.credential_statements, db.dsse_statements,
   db.did_statements, db.governance_statements)

/-- Ids already present in the global table a global variant would be
stored into (empty for graph-scoped variants). -/
def GraphDB.global_ids (db : GraphDB) : Statement → List String
  | .CredentialSigstoreBundleRegistration _ =>
      db.sigstore_statements.map (fun r => r.id)
  | .CredentialRegistration _ =>
      db.credential_statements.map (fun r => r.id)
  | .CredentialDsseRegistration _ =>
      db.dsse_statements.map (fun r => r.id)
  | .DidRegistration _ => db.did_statements.map (fun r => r.id)
  | .GovernanceRegistration _ =>
      db.governance_statements.map (fun r => r.id)
  | _ => []

/-- A global statement is stored in its global collection. -/
def GraphDB.stored_globally (db : GraphDB) (s : Statement) : Prop :=
  match s with
  | .CredentialSigstoreBundleRegistration _ =>
      ∃ r ∈ db.sigstore_statements, r.statement = s
  | .CredentialRegistration _ =>
      ∃ r ∈ db.credential_statements, r.statement = s
  | .CredentialDsseRegistration _ =>
      ∃ r ∈ db.dsse_statements, r.statement = s
  | .DidRegistration _ => ∃ r ∈ db.did_statements, r.statement = s
  | .GovernanceRegistration _ =>
      ∃ r ∈ db.governance_statements, r.statement = s
  | _ => False

/-- The ids of the statements directly linked to a graph. -/
def GraphDB.directly_linked_ids (db : GraphDB) (gid : String) :
    List String :=
  (db.statement_graph_link.filter (fun l => l.graph_id = gid)).map
    (fun l => l.statement_id)

/-! ## Success and invariants of the retrieval pipeline -/

theorem computeRows_statement_some {db : GraphDB} {gid : String}
    {row : SqlStatementRow} (hrow : row ∈ db.computeRows gid) :
    ∃ s, row.statement = some s := by
  simp only [GraphDB.computeRows] at hrow
  obtain ⟨r, _, hr⟩ := List.mem_map.mp hrow
  exact ⟨r.s.statement, by rw [← hr]⟩

theorem vcRowsFor_statement_some {db : GraphDB} {cs : List String}
    {row : SqlStatementRow} (hrow : row ∈ db.vcRowsFor cs) :
    ∃ s, row.statement = some s := by
  simp only [GraphDB.vcRowsFor] at hrow
  obtain ⟨r, _, hr⟩ := List.mem_map.mp hrow
  exact ⟨r.statement, by rw [← hr]⟩

theorem didRowsFor_statement_some {db : GraphDB} {dids : List String}
    {row : SqlStatementRow} (hrow : row ∈ db.didRowsFor dids) :
    ∃ s, row.statement = some s := by
  simp only [GraphDB.didRowsFor] at hrow
  obtain ⟨r, _, hr⟩ := List.mem_map.mp hrow
  exact ⟨r.s.statement, by rw [← hr]⟩

theorem get_global_statements_spec (db : GraphDB)
    (m : List (String × Statement)) :
    ∃ m', db.get_global_statements m = .ok m' ∧
      (MapOk m → MapOk m') ∧
      (∀ k, k ∈ m.map Prod.fst → k ∈ m'.map Prod.fst) := by
  obtain ⟨mvc, hvc⟩ := rows_to_statements_ok_of_some
    (db.vcRowsFor (m.map (fun p => p.2.get_id)))
    (fun row hrow => by
      obtain ⟨s, hs⟩ := vcRowsFor_statement_some hrow
      simp [hs])
  unfold GraphDB.get_global_statements
  rw [hvc]
  dsimp only
  by_cases hempty : (m.map (fun p => p.2.get_registered_by)).isEmpty
  · rw [if_pos hempty]
    refine ⟨extendMap m mvc, rfl, ?_, ?_⟩
    · intro hm
      exact extendMap_MapOk hm (rows_to_statements_MapOk hvc).2
    · intro k hk
      exact extendMap_keys_left hk
  · rw [if_neg hempty]
    obtain ⟨mdid, hdid⟩ := rows_to_statements_ok_of_some
      (db.didRowsFor (m.map (fun p => p.2.get_registered_by)))
      (fun row hrow => by
        obtain ⟨s, hs⟩ := didRowsFor_statement_some hrow
        simp [hs])
    rw [hdid]
    dsimp only
    refine ⟨extendMap (extendMap m mvc) mdid, rfl, ?_, ?_⟩
    · intro hm
      exact extendMap_MapOk (extendMap_MapOk hm
        (rows_to_statements_MapOk hvc).2)
        (rows_to_statements_MapOk hdid).2
    · intro k hk
      exact extendMap_keys_left (extendMap_keys_left hk)

/-- Any successful `retrieve_graph` returns a statement collection with
pairwise-distinct identifiers. -/
theorem retrieve_graph_nodup {db : GraphDB} {gid : String} {g : Graph}
    {stmts : List Statement} (h : db.retrieve_graph gid = .ok g)
    (hs : g.statements = some stmts) :
    (stmts.map Statement.get_id).Nodup := by
  unfold GraphDB.retrieve_graph at h
  cases hfind : db.graphs.find? (fun gr => gr.graph_id = gid) with
  | none =>
      rw [hfind] at h
      exact absurd h (by simp)
  | some gr =>
      rw [hfind] at h
      dsimp only at h
      by_cases hce : (db.computeRows gid).isEmpty
      · rw [if_pos hce, Except.ok.injEq] at h
        rw [← h] at hs
        exact absurd hs (by simp)
      · rw [if_neg hce] at h
        cases hm0 : rows_to_statements (db.computeRows gid) with
        | error e =>
            rw [hm0] at h
            exact absurd h (by simp)
        | ok m0 =>
            rw [hm0] at h
            dsimp only at h
            cases hm1 : rows_to_statements
              (db.relatedRows gid (collect_subjects m0)) with
            | error e =>
                rw [hm1] at h
                exact absurd h (by simp)
            | ok m1 =>
                rw [hm1] at h
                dsimp only at h
                cases hfull : db.get_global_statements
                  (extendMap m0 m1) with
                | error e =>
                    rw [hfull] at h
                    exact absurd h (by simp)
                | ok m2 =>
                    rw [hfull] at h
                    dsimp only at h
                    rw [Except.ok.injEq] at h
                    have hmok : MapOk m2 := by
                      obtain ⟨m2x, hok, hmap, _⟩ :=
                        get_global_statements_spec db (extendMap m0 m1)
                      rw [hfull, Except.ok.injEq] at hok
                      subst hok
                      exact hmap (extendMap_MapOk
                        (rows_to_statements_MapOk hm0)
                        (rows_to_statements_MapOk hm1).2)
                    rw [← h] at hs
                    simp only [Option.some.injEq] at hs
                    subst hs
                    rw [List.map_map]
                    rw [show (m2.map (Statement.get_id ∘ fun p => p.2)) =
                      m2.map Prod.fst from List.map_congr_left
                        (fun p hp => hmok.2 p hp)]
                    exact hmok.1

/-! ## Join-step and COALESCE lemmas -/

theorem mem_joinStep_elim {ρ β : Type} {rows : List ρ} {cond : ρ → List β}
    {set : ρ → Option β → ρ} {r' : ρ} (h : r' ∈ joinStep rows cond set) :
    ∃ r ∈ rows, (cond r = [] ∧ r' = set r none) ∨
      ∃ b ∈ cond r, r' = set r (some b) := by
  unfold joinStep at h
  obtain ⟨r, hr, hmem⟩ := List.mem_flatMap.mp h
  refine ⟨r, hr, ?_⟩
  cases hc : cond r with
  | nil =>
      rw [hc] at hmem
      rw [List.mem_singleton] at hmem
      exact Or.inl ⟨rfl, hmem⟩
  | cons b bs =>
      rw [hc] at hmem
      obtain ⟨b2, hb2, hr'⟩ := List.mem_map.mp hmem
      exact Or.inr ⟨b2, hc ▸ hb2, hr'.symm⟩

theorem mem_joinStep_none {ρ β : Type} {rows : List ρ} {cond : ρ → List β}
    {set : ρ → Option β → ρ} {r : ρ} (h : r ∈ rows) (hc : cond r = []) :
    set r none ∈ joinStep rows cond set := by
  unfold joinStep
  refine List.mem_flatMap.mpr ⟨r, h, ?_⟩
  rw [hc]
  simp

theorem mem_joinStep_some {ρ β : Type} {rows : List ρ} {cond : ρ → List β}
    {set : ρ → Option β → ρ} {r : ρ} {b : β} (h : r ∈ rows)
    (hb : b ∈ cond r) : set r (some b) ∈ joinStep rows cond set := by
  unfold joinStep
  refine List.mem_flatMap.mpr ⟨r, h, ?_⟩
  cases hc : cond r with
  | nil =>
      rw [hc] at hb
      exact absurd hb (by simp)
  | cons c cs =>
      exact List.mem_map.mpr ⟨b, hc ▸ hb, rfl⟩

theorem mem_joinStep_surv {ρ β : Type} {rows : List ρ} {cond : ρ → List β}
    {set : ρ → Option β → ρ} {r : ρ} (h : r ∈ rows) :
    ∃ ob, set r ob ∈ joinStep rows cond set := by
  cases hc : cond r with
  | nil => exact ⟨none, mem_joinStep_none h hc⟩
  | cons b bs =>
      exact ⟨some b, mem_joinStep_some h (hc ▸ List.mem_cons_self b bs)⟩

theorem coalesce_cons_none {α : Type} (l : List (Option α)) :
    coalesce (none :: l) = coalesce l := by
  simp [coalesce]

theorem coalesce_cons_some {α : Type} (x : α) (l : List (Option α)) :
    coalesce (some x :: l) = some x := by
  simp [coalesce]

theorem coalesce_eq_some_mem {α : Type} {l : List (Option α)} {x : α}
    (h : coalesce l = some x) : some x ∈ l := by
  induction l with
  | nil => simp [coalesce] at h
  | cons o t ih =>
      cases o with
      | none =>
          rw [coalesce_cons_none] at h
          exact List.mem_cons_of_mem _ (ih h)
      | some y =>
          rw [coalesce_cons_some] at h
          rw [Option.some_inj] at h
          subst h
          exact List.mem_cons_self _ _

/-! ## Provenance: every statement surfaced by the retrieval queries is
stored in some table of the graph store -/

/-- All statements stored in the statement tables of the store. -/
def GraphDB.all_statements (db : GraphDB) : List Statement :=
  db.computation_statements.map (fun r => r.statement) ++
  db.data_statements.map (fun r => r.statement) ++
  db.metadata_statements.map (fun r => r.statement) ++
  db.storage_statements.map (fun r => r.statement) ++
  db.entity_statements.map (fun r => r.statement) ++
  db.association_statements.map (fun r => r.statement) ++
  db.sigstore_statements.map (fun r => r.statement) ++
  db.credential_statements.map (fun r => r.statement) ++
  db.dsse_statements.map (fun r => r.statement) ++
  db.did_statements.map (fun r => r.statement) ++
  db.governance_statements.map (fun r => r.statement)

theorem all_statements_of_computation {db : GraphDB} {r : StmtRow}
    (h : r ∈ db.computation_statements) :
    r.statement ∈ db.all_statements := by
  unfold GraphDB.all_statements
  simp only [List.mem_append, List.mem_map]
  exact Or.inl (Or.inl (Or.inl (Or.inl (Or.inl (Or.inl (Or.inl (Or.inl
    (Or.inl (Or.inl ⟨r, h, rfl⟩)))))))))

theorem all_statements_of_data {db : GraphDB} {r : StmtRow}
    (h : r ∈ db.data_statements) : r.statement ∈ db.all_statements := by
  unfold GraphDB.all_statements
  simp only [List.mem_append, List.mem_map]
  exact Or.inl (Or.inl (Or.inl (Or.inl (Or.inl (Or.inl (Or.inl (Or.inl
    (Or.inl (Or.inr ⟨r, h, rfl⟩)))))))))

theorem all_statements_of_metadata {db : GraphDB} {r : MetadataRow}
    (h : r ∈ db.metadata_statements) :
    r.statement ∈ db.all_statements := by
  unfold GraphDB.all_statements
  simp only [List.mem_append, List.mem_map]
  exact Or.inl (Or.inl (Or.inl (Or.inl (Or.inl (Or.inl (Or.inl (Or.inl
    (Or.inr ⟨r, h, rfl⟩))))))))

theorem all_statements_of_storage {db : GraphDB} {r : StorageRow}
    (h : r ∈ db.storage_statements) :
    r.statement ∈ db.all_statements := by
  unfold GraphDB.all_statements
  simp only [List.mem_append, List.mem_map]
  exact Or.inl (Or.inl (Or.inl (Or.inl (Or.inl (Or.inl (Or.inl
    (Or.inr ⟨r, h, rfl⟩)))))))

theorem all_statements_of_entity {db : GraphDB} {r : StmtRow}
    (h : r ∈ db.entity_statements) :
    r.statement ∈ db.all_statements := by
  unfold GraphDB.all_statements
  simp only [List.mem_append, List.mem_map]
  exact Or.inl (Or.inl (Or.inl (Or.inl (Or.inl (Or.inl
    (Or.inr ⟨r, h, rfl⟩))))))

theorem all_statements_of_association {db : GraphDB}
    {r : AssociationStmtRow} (h : r ∈ db.association_statements) :
    r.statement ∈ db.all_statements := by
  unfold GraphDB.all_statements
  simp only [List.mem_append, List.mem_map]
  exact Or.inl (Or.inl (Or.inl (Or.inl (Or.inl
    (Or.inr ⟨r, h, rfl⟩)))))

theorem all_statements_of_credential {db : GraphDB} {r : CredentialRow}
    (h : r ∈ db.credential_statements) :
    r.statement ∈ db.all_statements := by
  unfold GraphDB.all_statements
  simp only [List.mem_append, List.mem_map]
  exact Or.inl (Or.inl (Or.inl (Or.inr ⟨r, h, rfl⟩)))

theorem all_statements_of_did {db : GraphDB} {r : DidRow}
    (h : r ∈ db.did_statements) : r.statement ∈ db.all_statements := by
  unfold GraphDB.all_statements
  simp only [List.mem_append, List.mem_map]
  exact Or.inl (Or.inr ⟨r, h, rfl⟩)

theorem computeRows_prov {db : GraphDB} {gid : String} :
    ∀ row ∈ db.computeRows gid, ∀ s ∈ rowStatements row,
      s ∈ db.all_statements := by
  intro row hrow
  simp only [GraphDB.computeRows] at hrow
  obtain ⟨r3, h3, hrow⟩ := List.mem_map.mp hrow
  unfold GraphDB.computeJ3 at h3
  obtain ⟨r2, h2, hc3⟩ := mem_joinStep_elim h3
  unfold GraphDB.computeJ2 at h2
  obtain ⟨r1, h1, hc2⟩ := mem_joinStep_elim h2
  unfold GraphDB.computeJ1 at h1
  obtain ⟨r0, h0, hc1⟩ := mem_joinStep_elim h1
  have hbase : r0.s ∈ db.computation_statements ∧ r0.vc = none ∧
      r0.metadata = none ∧ r0.did = none := by
    unfold GraphDB.computeBase at h0
    obtain ⟨srow, hs, h0⟩ := List.mem_flatMap.mp h0
    obtain ⟨l, _, h0⟩ := List.mem_flatMap.mp h0
    by_cases hls : l.statement_id = srow.id
    · rw [if_pos hls] at h0
      obtain ⟨g, _, h0⟩ := List.mem_map.mp h0
      rw [← h0]
      exact ⟨hs, rfl, rfl, rfl⟩
    · rw [if_neg hls] at h0
      exact absurd h0 (by simp)
  have h1f : r1.s ∈ db.computation_statements ∧
      (∀ v, r1.vc = some v → v ∈ db.credential_statements) ∧
      r1.metadata = none ∧ r1.did = none := by
    rcases hc1 with ⟨_, hr1⟩ | ⟨b, hb, hr1⟩ <;> subst hr1 <;>
      refine ⟨hbase.1, ?_, hbase.2.2.1, hbase.2.2.2⟩
    · intro v hv
      simp at hv
    · intro v hv
      obtain rfl : b = v := by simpa using hv
      exact (List.mem_filter.mp hb).1
  have h2f : r2.s ∈ db.computation_statements ∧
      (∀ v, r2.vc = some v → v ∈ db.credential_statements) ∧
      (∀ m, r2.metadata = some m → m ∈ db.metadata_statements) ∧
      r2.did = none := by
    rcases hc2 with ⟨_, hr2⟩ | ⟨b, hb, hr2⟩ <;> subst hr2 <;>
      refine ⟨h1f.1, h1f.2.1, ?_, h1f.2.2.2⟩
    · intro m hm
      simp at hm
    · intro m hm
      obtain rfl : b = m := by simpa using hm
      exact (List.mem_filter.mp hb).1
  have h3f : r3.s ∈ db.computation_statements ∧
      (∀ v, r3.vc = some v → v ∈ db.credential_statements) ∧
      (∀ m, r3.metadata = some m → m ∈ db.metadata_statements) ∧
      (∀ d, r3.did = some d → d ∈ db.did_statements) := by
    rcases hc3 with ⟨_, hr3⟩ | ⟨b, hb, hr3⟩ <;> subst hr3 <;>
      refine ⟨h2f.1, h2f.2.1, h2f.2.2.1, ?_⟩
    · intro d hd
      simp at hd
    · intro d hd
      obtain rfl : b = d := by simpa using hd
      exact (List.mem_filter.mp hb).1
  intro s hs
  rw [← hrow] at hs
  simp only [rowStatements, List.mem_append, Option.mem_toList,
    Option.mem_def] at hs
  rcases hs with ((hs | hs) | hs) | hs
  · rw [Option.some_inj] at hs
    subst hs
    exact all_statements_of_computation h3f.1
  · cases hmd : r3.metadata with
    | none =>
        rw [hmd] at hs
        exact absurd hs (by simp)
    | some m =>
        rw [hmd] at hs
        simp only [Option.map_some', Option.some.injEq] at hs
        subst hs
        exact all_statements_of_metadata (h3f.2.2.1 m hmd)
  · cases hvc : r3.vc with
    | none =>
        rw [hvc] at hs
        exact absurd hs (by simp)
    | some v =>
        rw [hvc] at hs
        simp only [Option.map_some', Option.some.injEq] at hs
        subst hs
        exact all_statements_of_credential (h3f.2.1 v hvc)
  · cases hdid : r3.did with
    | none =>
        rw [hdid] at hs
        exact absurd hs (by simp)
    | some d =>
        rw [hdid] at hs
        simp only [Option.map_some', Option.some.injEq] at hs
        subst hs
        exact all_statements_of_did (h3f.2.2.2 d hdid)

theorem isEmpty_false_of_mem {α : Type} {l : List α} {x : α} (h : x ∈ l) :
    l.isEmpty = false := by
  cases l with
  | nil => exact absurd h (by simp)
  | cons a t => rfl

theorem coalesce_isSome_of_mem {α : Type} {l : List (Option α)} {x : α}
    (h : some x ∈ l) : (coalesce l).isSome := by
  induction l with
  | nil => exact absurd h (by simp)
  | cons o t ih =>
      cases o with
      | some y => rw [coalesce_cons_some]; rfl
      | none =>
          rw [coalesce_cons_none]
          rcases List.mem_cons.mp h with h1 | h1
          · exact absurd h1 (by simp)
          · exact ih h1

/-- In a well-formed statement map whose values all come from a pool
with at most one statement per identifier, a present key holds exactly
that statement. -/
theorem mapOk_pair_mem {m : List (String × Statement)} {k : String}
    {s0 : Statement} {L : List Statement} (hok : MapOk m)
    (hprov : ∀ p ∈ m, p.2 ∈ L) (hk : k ∈ m.map Prod.fst)
    (huniq : ∀ s ∈ L, s.get_id = k → s = s0) :
    (k, s0) ∈ m := by
  obtain ⟨p, hp, hpk⟩ := List.mem_map.mp hk
  obtain ⟨a, b⟩ := p
  have ha : a = k := hpk
  subst ha
  have hid : b.get_id = a := hok.2 (a, b) hp
  have hb : b = s0 := huniq b (hprov (a, b) hp) hid
  subst hb
  exact hp

/-- The requested graph sits at level 0 of the `graph_hierarchy` CTE. -/
theorem graphHierarchy_base {graphs : List GraphRow} {g : GraphRow}
    {gid : String} (hg : g ∈ graphs) (hgid : g.graph_id = gid) :
    (g, 0) ∈ graphHierarchy graphs gid := by
  unfold graphHierarchy
  have hmem : ((g, 0) : GraphRow × Nat) ∈
      (graphs.filter (fun x => x.graph_id = gid)).map (fun x => (x, 0)) :=
    List.mem_map.mpr ⟨g, List.mem_filter.mpr ⟨hg, by simp [hgid]⟩, rfl⟩
  rw [hierarchyRounds]
  rw [if_neg (fun hemp => by
    rw [List.isEmpty_iff] at hemp
    rw [hemp] at hmem
    simp at hmem)]
  exact List.mem_append_left _ hmem

/-- A computation statement linked to the requested graph surfaces as a
row of the computation query. -/
theorem mem_computeRows_statement {db : GraphDB} {gid : String}
    {g : GraphRow} {crow : StmtRow}
    (hg : g ∈ db.graphs) (hgid : g.graph_id = gid)
    (hcrow : crow ∈ db.computation_statements)
    (hclink : (⟨crow.id, gid⟩ : LinkRow) ∈ db.statement_graph_link) :
    ∃ row ∈ db.computeRows gid, row.statement = some crow.statement := by
  have hb0 : (⟨crow, none, none, none⟩ : ComputeJoinRow) ∈
      db.computeBase gid := by
    unfold GraphDB.computeBase
    refine List.mem_flatMap.mpr ⟨crow, hcrow, ?_⟩
    refine List.mem_flatMap.mpr ⟨⟨crow.id, gid⟩, hclink, ?_⟩
    rw [if_pos rfl]
    exact List.mem_map.mpr ⟨g, List.mem_filter.mpr ⟨hg, by simp [hgid]⟩,
      rfl⟩
  have h1 : ∃ o, (⟨crow, o, none, none⟩ : ComputeJoinRow) ∈
      db.computeJ1 gid := by
    unfold GraphDB.computeJ1
    exact mem_joinStep_surv hb0
  obtain ⟨o1, h1⟩ := h1
  have h2 : ∃ o, (⟨crow, o1, o, none⟩ : ComputeJoinRow) ∈
      db.computeJ2 gid := by
    unfold GraphDB.computeJ2
    exact mem_joinStep_surv h1
  obtain ⟨o2, h2⟩ := h2
  have h3 : ∃ o, (⟨crow, o1, o2, o⟩ : ComputeJoinRow) ∈
      db.computeJ3 gid := by
    unfold GraphDB.computeJ3
    exact mem_joinStep_surv h2
  obtain ⟨o3, h3⟩ := h3
  refine ⟨⟨some crow.statement, o2.map (fun m => m.statement),
    o1.map (fun vc => vc.statement), o3.map (fun d => d.statement)⟩,
    ?_, rfl⟩
  unfold GraphDB.computeRows
  exact List.mem_map.mpr ⟨_, h3, rfl⟩

/-- Field provenance of the fully-joined rows of the related-statement
query: every joined row comes from its table, a data-subject row only
rides along with its data statement, and any entity-subject row comes
from `entity_statement_subjects`. -/
theorem relatedJ8_fields {db : GraphDB} {gid : String} :
    ∀ r ∈ db.relatedJ8 gid,
      (∀ d, r.data = some d → d ∈ db.data_statements) ∧
      (∀ m, r.metadata = some m → m ∈ db.metadata_statements) ∧
      (∀ st, r.storage = some st → st ∈ db.storage_statements) ∧
      (∀ a, r.association = some a → a ∈ db.association_statements) ∧
      (∀ x, r.dss = some x → r.data.isSome) ∧
      (∀ x, r.ess = some x → x ∈ db.entity_statement_subjects) := by
  intro r8 h8
  unfold GraphDB.relatedJ8 at h8
  obtain ⟨r7, h7, hc8⟩ := mem_joinStep_elim h8
  unfold GraphDB.relatedJ7 at h7
  obtain ⟨r6, h6, hc7⟩ := mem_joinStep_elim h7
  unfold GraphDB.relatedJ6 at h6
  obtain ⟨r5, h5, hc6⟩ := mem_joinStep_elim h6
  unfold GraphDB.relatedJ5 at h5
  obtain ⟨r4, h4, hc5⟩ := mem_joinStep_elim h5
  unfold GraphDB.relatedJ4 at h4
  obtain ⟨r3, h3, hc4⟩ := mem_joinStep_elim h4
  unfold GraphDB.relatedJ3 at h3
  obtain ⟨r2, h2, hc3⟩ := mem_joinStep_elim h3
  unfold GraphDB.relatedJ2 at h2
  obtain ⟨r1, h1, hc2⟩ := mem_joinStep_elim h2
  unfold GraphDB.relatedJ1 at h1
  obtain ⟨r0, h0, hc1⟩ := mem_joinStep_elim h1
  have hb : r0.data = none ∧ r0.dss = none ∧ r0.metadata = none ∧
      r0.storage = none ∧ r0.association = none ∧ r0.ess = none := by
    unfold GraphDB.relatedBase at h0
    obtain ⟨p, _, hp⟩ := List.mem_map.mp h0
    rw [← hp]
    exact ⟨rfl, rfl, rfl, rfl, rfl, rfl⟩
  have f1 : r1.data = none ∧ r1.dss = none ∧ r1.metadata = none ∧
      r1.storage = none ∧ r1.association = none ∧ r1.ess = none := by
    rcases hc1 with ⟨_, hr⟩ | ⟨b, _, hr⟩ <;> subst hr <;> exact hb
  have f2 : (∀ d, r2.data = some d → d ∈ db.data_statements) ∧
      r2.dss = none ∧ r2.metadata = none ∧ r2.storage = none ∧
      r2.association = none ∧ r2.ess = none := by
    rcases hc2 with ⟨_, hr⟩ | ⟨b, hbm, hr⟩ <;> subst hr <;>
      refine ⟨?_, f1.2.1, f1.2.2.1, f1.2.2.2.1, f1.2.2.2.2.1,
        f1.2.2.2.2.2⟩
    · intro d hd
      simp at hd
    · intro d hd
      obtain rfl : b = d := by simpa using hd
      cases hl : r1.link with
      | none =>
          rw [hl] at hbm
          exact absurd hbm (by simp)
      | some l =>
          rw [hl] at hbm
          exact (List.mem_filter.mp hbm).1
  have f3 : (∀ d, r3.data = some d → d ∈ db.data_statements) ∧
      (∀ x, r3.dss = some x → r3.data.isSome) ∧ r3.metadata = none ∧
      r3.storage = none ∧ r3.association = none ∧ r3.ess = none := by
    rcases hc3 with ⟨_, hr⟩ | ⟨b, hbm, hr⟩ <;> subst hr <;>
      refine ⟨f2.1, ?_, f2.2.2.1, f2.2.2.2.1, f2.2.2.2.2.1,
        f2.2.2.2.2.2⟩
    · intro x hx
      simp at hx
    · intro x hx
      cases hd : r2.data with
      | none =>
          rw [hd] at hbm
          exact absurd hbm (by simp)
      | some d => simp [hd]
  have f4 : (∀ d, r4.data = some d → d ∈ db.data_statements) ∧
      (∀ x, r4.dss = some x → r4.data.isSome) ∧
      (∀ m, r4.metadata = some m → m ∈ db.metadata_statements) ∧
      r4.storage = none ∧ r4.association = none ∧ r4.ess = none := by
    rcases hc4 with ⟨_, hr⟩ | ⟨b, hbm, hr⟩ <;> subst hr <;>
      refine ⟨f3.1, f3.2.1, ?_, f3.2.2.2.1, f3.2.2.2.2.1,
        f3.2.2.2.2.2⟩
    · intro m hm
      simp at hm
    · intro m hm
      obtain rfl : b = m := by simpa using hm
      cases hl : r3.link with
      | none =>
          rw [hl] at hbm
          exact absurd hbm (by simp)
      | some l =>
          rw [hl] at hbm
          exact (List.mem_filter.mp hbm).1
  have f5 : (∀ d, r5.data = some d → d ∈ db.data_statements) ∧
      (∀ x, r5.dss = some x → r5.data.isSome) ∧
      (∀ m, r5.metadata = some m → m ∈ db.metadata_statements) ∧
      (∀ st, r5.storage = some st → st ∈ db.storage_statements) ∧
      r5.association = none ∧ r5.ess = none := by
    rcases hc5 with ⟨_, hr⟩ | ⟨b, hbm, hr⟩ <;> subst hr <;>
      refine ⟨f4.1, f4.2.1, f4.2.2.1, ?_, f4.2.2.2.2.1,
        f4.2.2.2.2.2⟩
    · intro st hst
      simp at hst
    · intro st hst
      obtain rfl : b = st := by simpa using hst
      cases hl : r4.link with
      | none =>
          rw [hl] at hbm
          exact absurd hbm (by simp)
      | some l =>
          rw [hl] at hbm
          exact (List.mem_filter.mp hbm).1
  have f6 : (∀ d, r6.data = some d → d ∈ db.data_statements) ∧
      (∀ x, r6.dss = some x → r6.data.isSome) ∧
      (∀ m, r6.metadata = some m → m ∈ db.metadata_statements) ∧
      (∀ st, r6.storage = some st → st ∈ db.storage_statements) ∧
      (∀ a, r6.association = some a → a ∈ db.association_statements) ∧
      r6.ess = none := by
    rcases hc6 with ⟨_, hr⟩ | ⟨b, hbm, hr⟩ <;> subst hr <;>
      refine ⟨f5.1, f5.2.1, f5.2.2.1, f5.2.2.2.1, ?_,
        f5.2.2.2.2.2⟩
    · intro a ha
      simp at ha
    · intro a ha
      obtain rfl : b = a := by simpa using ha
      cases hl : r5.link with
      | none =>
          rw [hl] at hbm
          exact absurd hbm (by simp)
      | some l =>
          rw [hl] at hbm
          exact (List.mem_filter.mp hbm).1
  have f7 : (∀ d, r7.data = some d → d ∈ db.data_statements) ∧
      (∀ x, r7.dss = some x → r7.data.isSome) ∧
      (∀ m, r7.metadata = some m → m ∈ db.metadata_statements) ∧
      (∀ st, r7.storage = some st → st ∈ db.storage_statements) ∧
      (∀ a, r7.association = some a → a ∈ db.association_statements) ∧
      r7.ess = none := by
    rcases hc7 with ⟨_, hr⟩ | ⟨b, _, hr⟩ <;> subst hr <;>
      exact ⟨f6.1, f6.2.1, f6.2.2.1, f6.2.2.2.1, f6.2.2.2.2.1,
        f6.2.2.2.2.2⟩
  rcases hc8 with ⟨_, hr⟩ | ⟨b, hbm, hr⟩ <;> subst hr <;>
    refine ⟨f7.1, f7.2.2.1, f7.2.2.2.1, f7.2.2.2.2.1, f7.2.1, ?_⟩
  · intro x hx
    simp at hx
  · intro x hx
    obtain rfl : b = x := by simpa using hx
    cases he : r7.entity with
    | none =>
        rw [he] at hbm
        exact absurd hbm (by simp)
    | some e =>
        rw [he] at hbm
        exact (List.mem_filter.mp hbm).1

/-- Every row of the related-statement query carries only statements
stored in the graph store, and — when no entity-subject index rows exist
— a non-NULL statement column. -/
theorem relatedRows_spec {db : GraphDB} {gid : String}
    {subjects : List String} :
    ∀ row ∈ db.relatedRows gid subjects,
      (∀ s ∈ rowStatements row, s ∈ db.all_statements) ∧
      (db.entity_statement_subjects = [] → row.statement.isSome) := by
  intro row hrow
  unfold GraphDB.relatedRows at hrow
  obtain ⟨r, hr, hrow⟩ := List.mem_map.mp hrow
  unfold GraphDB.relatedKept at hr
  have hrf := List.mem_filter.mp hr
  obtain ⟨hfd, hfm, hfst, hfa, hfdss, hfe⟩ := relatedJ8_fields r hrf.1
  have hkeep := hrf.2
  subst hrow
  constructor
  · intro s hs
    simp only [rowStatements, List.mem_append, Option.mem_toList,
      Option.mem_def] at hs
    rcases hs with ((hs | hs) | hs) | hs
    · have hsm := coalesce_eq_some_mem hs
      simp only [List.mem_cons, List.not_mem_nil, or_false] at hsm
      rcases hsm with h | h | h | h
      · cases hd : r.data with
        | none =>
            rw [hd] at h
            simp at h
        | some d =>
            rw [hd] at h
            simp only [Option.map_some', Option.some.injEq] at h
            subst h
            exact all_statements_of_data (hfd d hd)
      · cases hmd : r.metadata with
        | none =>
            rw [hmd] at h
            simp at h
        | some m =>
            rw [hmd] at h
            simp only [Option.map_some', Option.some.injEq] at h
            subst h
            exact all_statements_of_metadata (hfm m hmd)
      · cases hst : r.storage with
        | none =>
            rw [hst] at h
            simp at h
        | some st =>
            rw [hst] at h
            simp only [Option.map_some', Option.some.injEq] at h
            subst h
            exact all_statements_of_storage (hfst st hst)
      · cases ha : r.association with
        | none =>
            rw [ha] at h
            simp at h
        | some a =>
            rw [ha] at h
            simp only [Option.map_some', Option.some.injEq] at h
            subst h
            exact all_statements_of_association (hfa a ha)
    · exact absurd hs (by simp)
    · exact absurd hs (by simp)
    · exact absurd hs (by simp)
  · intro hents
    cases hk : coalesce [r.dss.map (fun x => x.subject),
        r.metadata.map (fun m => m.subject),
        r.storage.map (fun st => st.data),
        r.association.map (fun a => a.association),
        r.association.map (fun a => a.subject),
        r.ess.map (fun x => x.entity)] with
    | none =>
        rw [hk] at hkeep
        exact absurd hkeep (by simp)
    | some k =>
        have hkm := coalesce_eq_some_mem hk
        simp only [List.mem_cons, List.not_mem_nil, or_false] at hkm
        rcases hkm with h | h | h | h | h | h
        · cases hdss : r.dss with
          | none =>
              rw [hdss] at h
              simp at h
          | some x =>
              have hds := hfdss x hdss
              rw [Option.isSome_iff_exists] at hds
              obtain ⟨d, hd⟩ := hds
              have hmem2 : some d.statement ∈
                  [Option.map (fun d => d.statement) r.data,
                   Option.map (fun m => m.statement) r.metadata,
                   Option.map (fun st => st.statement) r.storage,
                   Option.map (fun a => a.statement) r.association] := by
                rw [hd]
                exact List.mem_cons_self _ _
              exact coalesce_isSome_of_mem hmem2
        · cases hmd : r.metadata with
          | none =>
              rw [hmd] at h
              simp at h
          | some m =>
              exact coalesce_isSome_of_mem
                (List.mem_cons_of_mem _ (List.mem_cons_self _ _))
        · cases hst : r.storage with
          | none =>
              rw [hst] at h
              simp at h
          | some st =>
              exact coalesce_isSome_of_mem (List.mem_cons_of_mem _
                (List.mem_cons_of_mem _ (List.mem_cons_self _ _)))
        · cases ha : r.association with
          | none =>
              rw [ha] at h
              simp at h
          | some a =>
              exact coalesce_isSome_of_mem (List.mem_cons_of_mem _
                (List.mem_cons_of_mem _ (List.mem_cons_of_mem _
                  (List.mem_cons_self _ _))))
        · cases ha : r.association with
          | none =>
              rw [ha] at h
              simp at h
          | some a =>
              exact coalesce_isSome_of_mem (List.mem_cons_of_mem _
                (List.mem_cons_of_mem _ (List.mem_cons_of_mem _
                  (List.mem_cons_self _ _))))
        · cases hess : r.ess with
          | none =>
              rw [hess] at h
              simp at h
          | some x =>
              have := hfe x hess
              rw [hents] at this
              exact absurd this (by simp)

/-- A metadata statement linked to the requested graph whose subject is
among the matching subjects surfaces as a row of the related-statement
query with its statement in the selected column, provided no data
statement shares its identifier. -/
theorem mem_relatedRows_metadata {db : GraphDB} {gid : String}
    {subjects : List String} {g : GraphRow} {mrow : MetadataRow}
    (hg : g ∈ db.graphs) (hgid : g.graph_id = gid)
    (hm : mrow ∈ db.metadata_statements)
    (hml : (⟨mrow.id, gid⟩ : LinkRow) ∈ db.statement_graph_link)
    (hnd : ∀ d ∈ db.data_statements, d.id ≠ mrow.id)
    (hsub : mrow.subject ∈ subjects) :
    (⟨some mrow.statement, none, none, none⟩ : SqlStatementRow) ∈
      db.relatedRows gid subjects := by
  have hb0 : (⟨g, 0, none, none, none, none, none, none, none, none⟩ :
      RelatedJoinRow) ∈ db.relatedBase gid := by
    unfold GraphDB.relatedBase
    exact List.mem_map.mpr ⟨(g, 0), graphHierarchy_base hg hgid, rfl⟩
  have h1 : (⟨g, 0, some ⟨mrow.id, gid⟩, none, none, none, none, none,
      none, none⟩ : RelatedJoinRow) ∈ db.relatedJ1 gid := by
    unfold GraphDB.relatedJ1
    exact mem_joinStep_some hb0
      (List.mem_filter.mpr ⟨hml, by simp [hgid]⟩)
  have h2 : (⟨g, 0, some ⟨mrow.id, gid⟩, none, none, none, none, none,
      none, none⟩ : RelatedJoinRow) ∈ db.relatedJ2 gid := by
    unfold GraphDB.relatedJ2
    refine mem_joinStep_none h1 ?_
    exact List.filter_eq_nil_iff.mpr (fun d hd => by
      simpa using (hnd d hd).symm)
  have h3 : (⟨g, 0, some ⟨mrow.id, gid⟩, none, none, none, none, none,
      none, none⟩ : RelatedJoinRow) ∈ db.relatedJ3 gid := by
    unfold GraphDB.relatedJ3
    exact mem_joinStep_none h2 rfl
  have h4 : (⟨g, 0, some ⟨mrow.id, gid⟩, none, none, some mrow, none,
      none, none, none⟩ : RelatedJoinRow) ∈ db.relatedJ4 gid := by
    unfold GraphDB.relatedJ4
    refine mem_joinStep_some h3 ?_
    exact List.mem_filter.mpr ⟨hm, by simp⟩
  have h5 : ∃ o, (⟨g, 0, some ⟨mrow.id, gid⟩, none, none, some mrow, o,
      none, none, none⟩ : RelatedJoinRow) ∈ db.relatedJ5 gid := by
    unfold GraphDB.relatedJ5
    exact mem_joinStep_surv h4
  obtain ⟨o5, h5⟩ := h5
  have h6 : ∃ o, (⟨g, 0, some ⟨mrow.id, gid⟩, none, none, some mrow, o5,
      o, none, none⟩ : RelatedJoinRow) ∈ db.relatedJ6 gid := by
    unfold GraphDB.relatedJ6
    exact mem_joinStep_surv h5
  obtain ⟨o6, h6⟩ := h6
  have h7 : ∃ o, (⟨g, 0, some ⟨mrow.id, gid⟩, none, none, some mrow, o5,
      o6, o, none⟩ : RelatedJoinRow) ∈ db.relatedJ7 gid := by
    unfold GraphDB.relatedJ7
    exact mem_joinStep_surv h6
  obtain ⟨o7, h7⟩ := h7
  have h8 : ∃ o, (⟨g, 0, some ⟨mrow.id, gid⟩, none, none, some mrow, o5,
      o6, o7, o⟩ : RelatedJoinRow) ∈ db.relatedJ8 gid := by
    unfold GraphDB.relatedJ8
    exact mem_joinStep_surv h7
  obtain ⟨o8, h8⟩ := h8
  have hkept : (⟨g, 0, some ⟨mrow.id, gid⟩, none, none, some mrow, o5,
      o6, o7, o8⟩ : RelatedJoinRow) ∈ db.relatedKept gid subjects := by
    unfold GraphDB.relatedKept
    refine List.mem_filter.mpr ⟨h8, ?_⟩
    show subjects.contains mrow.subject = true
    simpa using hsub
  unfold GraphDB.relatedRows
  exact List.mem_map.mpr ⟨_, hkept, rfl⟩

/-- Every credential row of `get_global_statements` carries a statement
stored in the graph store. -/
theorem vcRowsFor_prov {db : GraphDB} {cs : List String} :
    ∀ row ∈ db.vcRowsFor cs, ∀ s ∈ rowStatements row,
      s ∈ db.all_statements := by
  intro row hrow s hs
  simp only [GraphDB.vcRowsFor] at hrow
  obtain ⟨vc, hvc, hr⟩ := List.mem_map.mp hrow
  rw [← hr] at hs
  simp only [rowStatements] at hs
  simp at hs
  subst hs
  exact all_statements_of_credential (List.mem_filter.mp hvc).1

/-- Every DID row of `get_global_statements` carries only statements
stored in the graph store. -/
theorem didRowsFor_prov {db : GraphDB} {dids : List String} :
    ∀ row ∈ db.didRowsFor dids, ∀ s ∈ rowStatements row,
      s ∈ db.all_statements := by
  intro row hrow
  simp only [GraphDB.didRowsFor] at hrow
  obtain ⟨r2, h2, hrow⟩ := List.mem_map.mp hrow
  obtain ⟨r1, h1, hc2⟩ := mem_joinStep_elim h2
  obtain ⟨r0, h0, hc1⟩ := mem_joinStep_elim h1
  have hbase : r0.s.statement ∈ db.all_statements ∧ r0.metadata = none ∧
      r0.vc = none := by
    obtain ⟨d, hd, hr0⟩ := List.mem_map.mp h0
    have hdmem : d ∈ db.did_statements := (List.mem_filter.mp hd).1
    rw [← hr0]
    exact ⟨all_statements_of_did hdmem, rfl, rfl⟩
  have f1 : r1.s.statement ∈ db.all_statements ∧
      (∀ m, r1.metadata = some m → m ∈ db.metadata_statements) ∧
      r1.vc = none := by
    rcases hc1 with ⟨_, hr⟩ | ⟨b, hbm, hr⟩ <;> subst hr <;>
      refine ⟨hbase.1, ?_, hbase.2.2⟩
    · intro m hm
      simp at hm
    · intro m hm
      obtain rfl : b = m := by simpa using hm
      cases hd : r0.did with
      | none =>
          rw [hd] at hbm
          exact absurd hbm (by simp)
      | some d2 =>
          rw [hd] at hbm
          exact (List.mem_filter.mp hbm).1
  have f2 : r2.s.statement ∈ db.all_statements ∧
      (∀ m, r2.metadata = some m → m ∈ db.metadata_statements) ∧
      (∀ v, r2.vc = some v → v ∈ db.credential_statements) := by
    rcases hc2 with ⟨_, hr⟩ | ⟨b, hbm, hr⟩ <;> subst hr <;>
      refine ⟨f1.1, f1.2.1, ?_⟩
    · intro v hv
      simp at hv
    · intro v hv
      obtain rfl : b = v := by simpa using hv
      cases hd : r1.did with
      | none =>
          rw [hd] at hbm
          exact absurd hbm (by simp)
      | some d2 =>
          rw [hd] at hbm
          exact (List.mem_filter.mp hbm).1
  intro s hs
  rw [← hrow] at hs
  simp only [rowStatements, List.mem_append, Option.mem_toList,
    Option.mem_def] at hs
  rcases hs with ((hs | hs) | hs) | hs
  · rw [Option.some_inj] at hs
    subst hs
    exact f2.1
  · cases hmd : r2.metadata with
    | none =>
        rw [hmd] at hs
        exact absurd hs (by simp)
    | some m =>
        rw [hmd] at hs
        simp only [Option.map_some', Option.some.injEq] at hs
        subst hs
        exact all_statements_of_metadata (f2.2.1 m hmd)
  · cases hvc : r2.vc with
    | none =>
        rw [hvc] at hs
        exact absurd hs (by simp)
    | some v =>
        rw [hvc] at hs
        simp only [Option.map_some', Option.some.injEq] at hs
        subst hs
        exact all_statements_of_credential (f2.2.2 v hvc)
  · exact absurd hs (by simp)

/-- `get_global_statements` only ever adds statements stored in the
graph store. -/
theorem get_global_statements_prov {db : GraphDB}
    {m m2 : List (String × Statement)}
    (h : db.get_global_statements m = .ok m2)
    (hm : ∀ p ∈ m, p.2 ∈ db.all_statements) :
    ∀ p ∈ m2, p.2 ∈ db.all_statements := by
  unfold GraphDB.get_global_statements at h
  cases hvc : rows_to_statements
    (db.vcRowsFor (m.map (fun p => p.2.get_id))) with
  | error e =>
      rw [hvc] at h
      exact absurd h (by simp)
  | ok mvc =>
      rw [hvc] at h
      dsimp only at h
      have hmvc : ∀ p ∈ mvc, p.2 ∈ db.all_statements :=
        rows_to_statements_prov (fun row hrow => vcRowsFor_prov row hrow)
          hvc
      by_cases hempty : (m.map (fun p => p.2.get_registered_by)).isEmpty
      · rw [if_pos hempty, Except.ok.injEq] at h
        subst h
        intro p hp
        rcases mem_extendMap_elim hp with h1 | h1
        · exact hm p h1
        · exact hmvc p h1
      · rw [if_neg hempty] at h
        cases hdid : rows_to_statements
          (db.didRowsFor (m.map (fun p => p.2.get_registered_by))) with
        | error e =>
            rw [hdid] at h
            exact absurd h (by simp)
        | ok mdid =>
            rw [hdid] at h
            dsimp only at h
            rw [Except.ok.injEq] at h
            subst h
            have hmdid : ∀ p ∈ mdid, p.2 ∈ db.all_statements :=
              rows_to_statements_prov
                (fun row hrow => didRowsFor_prov row hrow) hdid
            intro p hp
            rcases mem_extendMap_elim hp with h1 | h1
            · rcases mem_extendMap_elim h1 with h2 | h2
              · exact hm p h2
              · exact hmvc p h2
            · exact hmdid p h1

/-! ## Verified properties -/

/-- C1: `compute_cid` is insensitive to the value of the `@id` member:
two statements whose serialized JSON objects agree on every member other
than `@id` (either of which may hold a placeholder such as
`in-progress`) are assigned the same identifier, because `@id` is
removed before canonicalization and hashing. -/
theorem compute_cid_insensitive_to_id
    (jsonldToNquads : Json → Except String String)
    (canonicalizeNquads : String → Except String String)
    (blake3CidRdfc : String → Except String String)
    (fields1 fields2 : List (String × Json))
    (h : fields1.filter (fun kv => kv.1 ≠ "@id") =
      fields2.filter (fun kv => kv.1 ≠ "@id")) :
    compute_cid jsonldToNquads canonicalizeNquads blake3CidRdfc
      (.obj fields1) =
    compute_cid jsonldToNquads canonicalizeNquads blake3CidRdfc
      (.obj fields2) := by
  simp only [compute_cid, Json.removeId, h]

/-- Witness for C1: a statement carrying the placeholder `in-progress`
and the same statement carrying a different identifier hash
identically. -/
theorem compute_cid_insensitive_to_id_witness :
    compute_cid (fun _ => .ok "nquads") (fun s => .ok s)
      (fun s => .ok ("b3-" ++ s))
      (.obj [("@context", .str "c"), ("@id", .str "in-progress"),
        ("@type", .str "DataRegistration"), ("data", .str "urn:cid:d")]) =
    compute_cid (fun _ => .ok "nquads") (fun s => .ok s)
      (fun s => .ok ("b3-" ++ s))
      (.obj [("@context", .str "c"), ("@id", .str "urn:cid:xyz"),
        ("@type", .str "DataRegistration"), ("data", .str "urn:cid:d")]) :=
  compute_cid_insensitive_to_id _ _ _ _ _ (by rfl)

/-- C2: `calc_and_validate_cid` recomputes the identifier and (1) any
`Ok` result is the recomputed identifier, never the caller-supplied one,
(2) an absent or matching expected identifier yields `Ok` of the
recomputed one, and (3) a differing expected identifier yields the error
carrying both the computed and the expected value. -/
theorem calc_and_validate_cid_spec
    (blake3Cid : Nat → List Nat → Except String String)
    (blob : List Nat) (multicodecCode : Nat) (expectedCid : Option String)
    (computed : String)
    (hc : blake3Cid multicodecCode blob = .ok computed) :
    (∀ r, calc_and_validate_cid blake3Cid blob multicodecCode expectedCid =
      .ok r → r = computed) ∧
    ((expectedCid = none ∨ expectedCid = some computed) →
      calc_and_validate_cid blake3Cid blob multicodecCode expectedCid =
        .ok computed) ∧
    (∀ e, expectedCid = some e → e ≠ computed →
      calc_and_validate_cid blake3Cid blob multicodecCode expectedCid =
        .error ("Computed CID " ++ computed ++
          " does not match provided CID " ++ e ++ ".")) := by
  have hbind : calc_and_validate_cid blake3Cid blob multicodecCode
      expectedCid =
      match expectedCid with
      | some cid =>
          if cid ≠ computed then
            Except.error ("Computed CID " ++ computed ++
              " does not match provided CID " ++ cid ++ ".")
          else Except.ok computed
      | none => Except.ok computed := by
    unfold calc_and_validate_cid
    rw [hc]
    rfl
  rw [hbind]
  cases expectedCid with
  | none => simp
  | some e =>
      by_cases he : e = computed
      · subst he
        simp
      · have hred : (match (some e : Option String) with
            | some cid =>
                if cid ≠ computed then
                  Except.error ("Computed CID " ++ computed ++
                    " does not match provided CID " ++ cid ++ ".")
                else Except.ok computed
            | none => Except.ok computed) =
            Except.error ("Computed CID " ++ computed ++
              " does not match provided CID " ++ e ++ ".") := by
          simp [he]
        rw [hred]
        refine ⟨?_, ?_, ?_⟩
        · intro r hr
          exact absurd hr (by simp)
        · rintro (h | h)
          · exact absurd h (by simp)
          · rw [Option.some_inj] at h
            exact absurd h he
        · intro e2 he2 _
          rw [Option.some_inj] at he2
          subst he2
          rfl

/-- Witness for C2: a mismatching expected CID produces the error
carrying both values. -/
theorem calc_and_validate_cid_spec_witness :
    calc_and_validate_cid (fun _ _ => .ok "abc") [0] 85 (some "xyz") =
      .error "Computed CID abc does not match provided CID xyz." :=
  (calc_and_validate_cid_spec (fun _ _ => .ok "abc") [0] 85 (some "xyz")
    "abc" rfl).2.2 "xyz" rfl (by decide)

/-- C9: creating a statement whose one-or-more identifier list is empty,
or holds only empty strings, fails with the reference-list error before
any identifier is computed; no statement value is produced. The
computation constructor fails this way on an empty input list for every
output list, and on an empty output list for every input list (when the
other list is itself rejected the error message is the same one). -/
theorem create_rejects_empty_reference_list
    (jsonldToNquads : Json → Except String String)
    (canonicalizeNquads : String → Except String String)
    (blake3CidRdfc : String → Except String String)
    (l : List String) (hl : l = [] ∨ ∀ s ∈ l, s = "")
    (registered_by : String) (timestamp : Option String) (now : String)
    (computation : Option String) (operated_by : String)
    (executed_on : Option String) (other : List String) :
    DataStatement.create jsonldToNquads canonicalizeNquads blake3CidRdfc
      l registered_by timestamp now =
      .error "CID list must not be empty." ∧
    EntityStatement.create jsonldToNquads canonicalizeNquads blake3CidRdfc
      l registered_by timestamp now =
      .error "CID list must not be empty." ∧
    ComputationStatement.create jsonldToNquads canonicalizeNquads
      blake3CidRdfc computation l other operated_by executed_on
      registered_by timestamp now =
      .error "CID list must not be empty." ∧
    ComputationStatement.create jsonldToNquads canonicalizeNquads
      blake3CidRdfc computation other l operated_by executed_on
      registered_by timestamp now =
      .error "CID list must not be empty." := by
  have hfil := filter_nonEmpty_eq_nil l hl
  have hfc : format_cids l = .error "CID list must not be empty." := by
    unfold format_cids
    rw [hfil]
    rfl
  have hfu : format_uuids l = .error "CID list must not be empty." := by
    unfold format_uuids
    rw [filter_nonEmpty_eq_nil l hl]
    rfl
  refine ⟨?_, ?_, ?_, ?_⟩
  · simp only [DataStatement.create, hfc]
    rfl
  · simp only [EntityStatement.create, hfu]
    rfl
  · simp only [ComputationStatement.create, hfc]
    rfl
  · cases ho : format_cids other with
    | error e =>
        have hmsg := format_cids_error_eq other e ho
        simp only [ComputationStatement.create, ho, hmsg]
        rfl
    | ok v =>
        simp only [ComputationStatement.create, ho, hfc]
        rfl

/-- Witness for C9: a data statement created from a list holding only an
empty string is rejected. -/
theorem create_rejects_empty_reference_list_witness :
    DataStatement.create (fun _ => .ok "nq") (fun s => .ok s)
      (fun s => .ok s) [""] "did:key:a" none "2024-01-01T00:00:00Z" =
      .error "CID list must not be empty." :=
  (create_rejects_empty_reference_list _ _ _ [""] (by simp) "did:key:a"
    none "2024-01-01T00:00:00Z" none "op" none ["x"]).1

/-- C10: `get_associations_for_subject` returns the association values
of all stored association rows with the given subject, strictly sorted
ascending (hence duplicate-free); `get_subjects_for_association` is the
symmetric statement for subjects. -/
theorem get_associations_and_subjects_spec (db : GraphDB)
    (subject association : String) :
    (db.get_associations_for_subject subject).Sorted (· < ·) ∧
    (db.get_associations_for_subject subject).Nodup ∧
    (∀ a, a ∈ db.get_associations_for_subject subject ↔
      ∃ r ∈ db.association_statements,
        r.subject = subject ∧ r.association = a) ∧
    (db.get_subjects_for_association association).Sorted (· < ·) ∧
    (db.get_subjects_for_association association).Nodup ∧
    (∀ s, s ∈ db.get_subjects_for_association association ↔
      ∃ r ∈ db.association_statements,
        r.association = association ∧ r.subject = s) := by
  have sortedA := dedupConsecutive_sorted_lt _
    (List.sorted_insertionSort (fun a b => a ≤ b)
      ((db.association_statements.filter
        (fun r => r.subject = subject)).map (fun r => r.association)))
  have sortedS := dedupConsecutive_sorted_lt _
    (List.sorted_insertionSort (fun a b => a ≤ b)
      ((db.association_statements.filter
        (fun r => r.association = association)).map (fun r => r.subject)))
  refine ⟨sortedA, sortedA.nodup, ?_, sortedS, sortedS.nodup, ?_⟩
  · intro a
    unfold GraphDB.get_associations_for_subject
    rw [dedupConsecutive_mem,
      (List.perm_insertionSort (fun a b => a ≤ b) _).mem_iff]
    simp only [List.mem_map, List.mem_filter]
    constructor
    · rintro ⟨r, ⟨hr, hsub⟩, ha⟩
      exact ⟨r, hr, by simpa using hsub, ha⟩
    · rintro ⟨r, hr, hsub, ha⟩
      exact ⟨r, ⟨hr, by simpa using hsub⟩, ha⟩
  · intro s
    unfold GraphDB.get_subjects_for_association
    rw [dedupConsecutive_mem,
      (List.perm_insertionSort (fun a b => a ≤ b) _).mem_iff]
    simp only [List.mem_map, List.mem_filter]
    constructor
    · rintro ⟨r, ⟨hr, hassoc⟩, hs⟩
      exact ⟨r, hr, by simpa using hassoc, hs⟩
    · rintro ⟨r, hr, hassoc, hs⟩
      exact ⟨r, ⟨hr, by simpa using hassoc⟩, hs⟩

/-- C5: attribute filtering never coerces between JSON types. For a row
whose `size` attribute is stored as the number 400, the compiled filter
`attributes.size == '400'` does not match and `attributes.size == 400`
does; for a row whose `size` attribute is stored as the string "400",
the filters `attributes.size == 400`, `attributes.size < n` and
`attributes.size > n` do not match for any number `n`; and retrieval
with `attributes.size == 400` over both rows returns exactly the
number-typed row while `attributes.size == '400'` over the number-typed
row returns nothing. -/
theorem filter_type_strictness (rowNum rowStr : AttrRow) (n : Int)
    (hNum : rowNum.attributes.find? (fun kv => kv.1 = "size") =
      some ("size", .num 400))
    (hStr : rowStr.attributes.find? (fun kv => kv.1 = "size") =
      some ("size", .str "400")) :
    (evalFilter rowNum (.attributeEquals "size" (.str "400"))).getD false
      = false ∧
    (evalFilter rowNum (.attributeEquals "size" (.num 400))).getD false
      = true ∧
    (evalFilter rowStr (.attributeEquals "size" (.num 400))).getD false
      = false ∧
    (evalFilter rowStr (.attributeLessThan "size" n)).getD false = false ∧
    (evalFilter rowStr (.attributeGreaterThan "size" n)).getD false
      = false ∧
    AttrDB.retrieve_statements [rowNum, rowStr]
        (some (.attributeEquals "size" (.num 400))) =
      ([rowNum.statement_data],
       [(rowNum.statement_id, rowNum.attributes)]) ∧
    AttrDB.retrieve_statements [rowNum]
        (some (.attributeEquals "size" (.str "400"))) = ([], []) := by
  have heq1 : evalFilter rowNum (.attributeEquals "size" (.str "400")) =
      some false := by
    simp [evalFilter, json_extract, hNum, FilterLit.bind, sqliteEq]
  have heq2 : evalFilter rowNum (.attributeEquals "size" (.num 400)) =
      some true := by
    simp [evalFilter, json_extract, hNum, FilterLit.bind, sqliteEq]
  have heq3 : evalFilter rowStr (.attributeEquals "size" (.num 400)) =
      some false := by
    simp [evalFilter, json_extract, hStr, FilterLit.bind, sqliteEq]
  have heq4 : evalFilter rowStr (.attributeLessThan "size" n) =
      some false := by
    simp [evalFilter, json_extract, json_type, hStr, sqliteLt, sqlAnd]
  have heq5 : evalFilter rowStr (.attributeGreaterThan "size" n) =
      some false := by
    simp [evalFilter, json_extract, json_type, hStr, sqliteGt, sqlAnd]
  refine ⟨by rw [heq1]; rfl, by rw [heq2]; rfl, by rw [heq3]; rfl,
    by rw [heq4]; rfl, by rw [heq5]; rfl, ?_, ?_⟩
  · simp [AttrDB.retrieve_statements, List.filter, heq2, heq3]
  · simp [AttrDB.retrieve_statements, List.filter, heq1]

/-- Statement payload used by the C5 witness rows. -/
def c5Statement : Statement :=
  .DataRegistration
    { context := ig_common_context_link, id := "urn:cid:c5data",
      type_ := "DataRegistration", data := .value "urn:cid:d",
      registered_by := "did:key:w", timestamp := "2024-01-01T00:00:00Z" }

/-- Witness row of the C5 scenario whose `size` attribute is the number
400. -/
def c5RowNum : AttrRow :=
  { statement_id := "urn:cid:c5data", statement_type := "DataRegistration",
    statement_data := c5Statement, attributes := [("size", .num 400)] }

/-- Witness row of the C5 scenario whose `size` attribute is the string
"400". -/
def c5RowStr : AttrRow :=
  { statement_id := "urn:cid:c5str", statement_type := "DataRegistration",
    statement_data := c5Statement, attributes := [("size", .str "400")] }

/-- Witness for C5: on concrete rows, `attributes.size == 400` retrieves
exactly the number-typed row and `attributes.size == '400'` retrieves
nothing from the number-typed row. -/
theorem filter_type_strictness_witness :
    AttrDB.retrieve_statements [c5RowNum, c5RowStr]
        (some (.attributeEquals "size" (.num 400))) =
      ([c5RowNum.statement_data],
       [(c5RowNum.statement_id, c5RowNum.attributes)]) ∧
    AttrDB.retrieve_statements [c5RowNum]
        (some (.attributeEquals "size" (.str "400"))) = ([], []) := by
  have h := filter_type_strictness c5RowNum c5RowStr 0 (by rfl) (by rfl)
  exact ⟨h.2.2.2.2.2.1, h.2.2.2.2.2.2⟩

theorem insertOrIgnore_mem_of_fresh {ρ κ : Type} [DecidableEq κ]
    (key : ρ → κ) (t : List ρ) (r : ρ)
    (h : t.any (fun x => key x = key r) = false) :
    r ∈ insertOrIgnore key t r := by
  unfold insertOrIgnore
  rw [if_neg (by simp [h])]
  simp

/-- C6: registering the same statement twice, with the same or different
graph targets, never returns an error, leaves every statement-body table
exactly as after the first registration (a duplicate insert is ignored,
never an overwrite), and any subsequent successful `retrieve_graph` on
the resulting store returns statements with pairwise-distinct
identifiers. -/
theorem register_twice_idempotent (db : GraphDB) (s : Statement)
    (g1 g2 : Option String) :
    ∃ db1 db2, db.register_statement s g1 = .ok db1 ∧
      db1.register_statement s g2 = .ok db2 ∧
      db2.statement_tables = db1.statement_tables ∧
      (∀ gid g stmts, db2.retrieve_graph gid = .ok g →
        g.statements = some stmts →
        (stmts.map Statement.get_id).Nodup) := by
  have hnodup : ∀ (dbx : GraphDB), ∀ gid g stmts,
      dbx.retrieve_graph gid = .ok g → g.statements = some stmts →
      (stmts.map Statement.get_id).Nodup :=
    fun _ _ _ _ h hs => retrieve_graph_nodup h hs
  cases s with
  | ComputationRegistration s =>
      refine ⟨_, _, rfl, rfl, ?_, hnodup _⟩
      cases g1 <;> cases g2 <;>
      simp [GraphDB.register_statement, Statement.isGlobal,
        GraphDB.register_graph_statement,
        GraphDB.opt_associate_statement_to_graph,
        GraphDB.associate_statement_to_graph, GraphDB.statement_tables,
        insertOrIgnore_idem]
  | DataRegistration s =>
      refine ⟨_, _, rfl, rfl, ?_, hnodup _⟩
      cases g1 <;> cases g2 <;>
      simp [GraphDB.register_statement, Statement.isGlobal,
        GraphDB.register_graph_statement,
        GraphDB.opt_associate_statement_to_graph,
        GraphDB.associate_statement_to_graph, GraphDB.statement_tables,
        insertOrIgnore_idem, foldl_insertOrIgnore_twice]
  | MetadataRegistration s =>
      refine ⟨_, _, rfl, rfl, ?_, hnodup _⟩
      cases g1 <;> cases g2 <;>
      simp [GraphDB.register_statement, Statement.isGlobal,
        GraphDB.register_graph_statement,
        GraphDB.opt_associate_statement_to_graph,
        GraphDB.associate_statement_to_graph, GraphDB.statement_tables,
        insertOrIgnore_idem]
  | StorageRegistration s =>
      refine ⟨_, _, rfl, rfl, ?_, hnodup _⟩
      cases g1 <;> cases g2 <;>
      simp [GraphDB.register_statement, Statement.isGlobal,
        GraphDB.register_graph_statement,
        GraphDB.opt_associate_statement_to_graph,
        GraphDB.associate_statement_to_graph, GraphDB.statement_tables,
        insertOrIgnore_idem]
  | EntityRegistration s =>
      refine ⟨_, _, rfl, rfl, ?_, hnodup _⟩
      cases g1 <;> cases g2 <;>
      simp [GraphDB.register_statement, Statement.isGlobal,
        GraphDB.register_graph_statement,
        GraphDB.opt_associate_statement_to_graph,
        GraphDB.associate_statement_to_graph, GraphDB.statement_tables,
        insertOrIgnore_idem, foldl_insertOrIgnore_twice]
  | AssociationRegistration s =>
      refine ⟨_, _, rfl, rfl, ?_, hnodup _⟩
      cases g1 <;> cases g2 <;>
      simp [GraphDB.register_statement, Statement.isGlobal,
        GraphDB.register_graph_statement,
        GraphDB.opt_associate_statement_to_graph,
        GraphDB.associate_statement_to_graph, GraphDB.statement_tables,
        insertOrIgnore_idem]
  | CredentialSigstoreBundleRegistration s =>
      refine ⟨_, _, rfl, rfl, ?_, hnodup _⟩
      simp [GraphDB.register_statement, Statement.isGlobal,
        GraphDB.register_global_statement, GraphDB.statement_tables,
        insertOrIgnore_idem]
  | CredentialRegistration s =>
      refine ⟨_, _, rfl, rfl, ?_, hnodup _⟩
      simp [GraphDB.register_statement, Statement.isGlobal,
        GraphDB.register_global_statement, GraphDB.statement_tables,
        insertOrIgnore_idem]
  | CredentialDsseRegistration s =>
      refine ⟨_, _, rfl, rfl, ?_, hnodup _⟩
      simp [GraphDB.register_statement, Statement.isGlobal,
        GraphDB.register_global_statement, GraphDB.statement_tables,
        insertOrIgnore_idem]
  | DidRegistration s =>
      refine ⟨_, _, rfl, rfl, ?_, hnodup _⟩
      simp [GraphDB.register_statement, Statement.isGlobal,
        GraphDB.register_global_statement, GraphDB.statement_tables,
        insertOrIgnore_idem]
  | GovernanceRegistration s =>
      refine ⟨_, _, rfl, rfl, ?_, hnodup _⟩
      simp [GraphDB.register_statement, Statement.isGlobal,
        GraphDB.register_global_statement, GraphDB.statement_tables,
        insertOrIgnore_idem]

/-- C7: registering a global variant with a non-`None` graph scope
succeeds, ignores the graph scope entirely (the link table and every
graph-scoped table are untouched, so the statement is not directly
linked to any graph), and stores the statement in its global collection
(when its id is not already taken there). -/
theorem register_global_scope_ignored (db : GraphDB) (s : Statement)
    (gid : String) (hglobal : s.isGlobal = true) :
    ∃ db', db.register_statement s (some gid) = .ok db' ∧
      db'.statement_graph_link = db.statement_graph_link ∧
      db'.graphs = db.graphs ∧
      db'.computation_statements = db.computation_statements ∧
      db'.data_statements = db.data_statements ∧
      db'.data_statement_subjects = db.data_statement_subjects ∧
      db'.metadata_statements = db.metadata_statements ∧
      db'.storage_statements = db.storage_statements ∧
      db'.entity_statements = db.entity_statements ∧
      db'.entity_statement_subjects = db.entity_statement_subjects ∧
      db'.association_statements = db.association_statements ∧
      (∀ gid2, db'.directly_linked_ids gid2 =
        db.directly_linked_ids gid2) ∧
      (s.get_id ∉ db.global_ids s → db'.stored_globally s) := by
  cases s with
  | AssociationRegistration s =>
      exact absurd hglobal (by simp [Statement.isGlobal])
  | StorageRegistration s =>
      exact absurd hglobal (by simp [Statement.isGlobal])
  | MetadataRegistration s =>
      exact absurd hglobal (by simp [Statement.isGlobal])
  | ComputationRegistration s =>
      exact absurd hglobal (by simp [Statement.isGlobal])
  | DataRegistration s =>
      exact absurd hglobal (by simp [Statement.isGlobal])
  | EntityRegistration s =>
      exact absurd hglobal (by simp [Statement.isGlobal])
  | CredentialSigstoreBundleRegistration s =>
      refine ⟨_, rfl, rfl, rfl, rfl, rfl, rfl, rfl, rfl, rfl, rfl, rfl,
        fun _ => rfl, ?_⟩
      intro hfresh
      have hany : db.sigstore_statements.any
          (fun r => r.id = s.id) = false := by
        rw [List.any_eq_false]
        intro r hr
        simp only [decide_eq_true_eq]
        intro hid
        exact hfresh (by
          simp only [Statement.get_id, GraphDB.global_ids, List.mem_map]
          exact ⟨r, hr, hid⟩)
      exact ⟨_, insertOrIgnore_mem_of_fresh (fun r => r.id)
        db.sigstore_statements ⟨s.id,
          Statement.CredentialSigstoreBundleRegistration s,
          s.registered_by⟩ hany, rfl⟩
  | CredentialRegistration s =>
      refine ⟨_, rfl, rfl, rfl, rfl, rfl, rfl, rfl, rfl, rfl, rfl, rfl,
        fun _ => rfl, ?_⟩
      intro hfresh
      have hany : db.credential_statements.any
          (fun r => r.id = s.id) = false := by
        rw [List.any_eq_false]
        intro r hr
        simp only [decide_eq_true_eq]
        intro hid
        exact hfresh (by
          simp only [Statement.get_id, GraphDB.global_ids, List.mem_map]
          exact ⟨r, hr, hid⟩)
      exact ⟨_, insertOrIgnore_mem_of_fresh (fun r => r.id)
        db.credential_statements ⟨s.id,
          Statement.CredentialRegistration s, s.registered_by,
          ((s.credential.credential_subject.head?.bind
            (fun cs => cs.id)).getD "")⟩ hany, rfl⟩
  | CredentialDsseRegistration s =>
      refine ⟨_, rfl, rfl, rfl, rfl, rfl, rfl, rfl, rfl, rfl, rfl, rfl,
        fun _ => rfl, ?_⟩
      intro hfresh
      have hany : db.dsse_statements.any
          (fun r => r.id = s.id) = false := by
        rw [List.any_eq_false]
        intro r hr
        simp only [decide_eq_true_eq]
        intro hid
        exact hfresh (by
          simp only [Statement.get_id, GraphDB.global_ids, List.mem_map]
          exact ⟨r, hr, hid⟩)
      exact ⟨_, insertOrIgnore_mem_of_fresh (fun r => r.id)
        db.dsse_statements ⟨s.id,
          Statement.CredentialDsseRegistration s,
          s.registered_by⟩ hany, rfl⟩
  | DidRegistration s =>
      refine ⟨_, rfl, rfl, rfl, rfl, rfl, rfl, rfl, rfl, rfl, rfl, rfl,
        fun _ => rfl, ?_⟩
      intro hfresh
      have hany : db.did_statements.any
          (fun r => r.id = s.get_id) = false := by
        rw [List.any_eq_false]
        intro r hr
        simp only [decide_eq_true_eq]
        intro hid
        exact hfresh (by
          simp only [Statement.get_id, GraphDB.global_ids, List.mem_map]
          exact ⟨r, hr, hid⟩)
      exact ⟨_, insertOrIgnore_mem_of_fresh (fun r => r.id)
        db.did_statements ⟨s.get_id,
          Statement.DidRegistration s, s.get_registered_by,
          s.get_type, s.get_did⟩ hany, rfl⟩
  | GovernanceRegistration s =>
      refine ⟨_, rfl, rfl, rfl, rfl, rfl, rfl, rfl, rfl, rfl, rfl, rfl,
        fun _ => rfl, ?_⟩
      intro hfresh
      have hany : db.governance_statements.any
          (fun r => r.id = s.id) = false := by
        rw [List.any_eq_false]
        intro r hr
        simp only [decide_eq_true_eq]
        intro hid
        exact hfresh (by
          simp only [Statement.get_id, GraphDB.global_ids, List.mem_map]
          exact ⟨r, hr, hid⟩)
      exact ⟨_, insertOrIgnore_mem_of_fresh (fun r => r.id)
        db.governance_statements ⟨s.id,
          Statement.GovernanceRegistration s, s.registered_by,
          s.subject, s.document⟩ hany, rfl⟩

/-- The DID statement used by the C7 witness. -/
def c7Did : Statement :=
  .DidRegistration (.Regular
    { context := ig_common_context_link, id := "urn:cid:did1",
      type_ := "DidRegistration", did := "did:key:d",
      registered_by := "did:key:d",
      timestamp := "2024-01-01T00:00:00Z" })

/-- Witness for C7: a regular DID statement registered into the empty
store with a graph scope succeeds, creates no statement-graph link, and
is stored globally. -/
theorem register_global_scope_ignored_witness :
    ∃ db', GraphDB.empty.register_statement c7Did (some "g1") = .ok db' ∧
      db'.statement_graph_link = GraphDB.empty.statement_graph_link ∧
      db'.stored_globally c7Did := by
  obtain ⟨db', h1, h2, _, _, _, _, _, _, _, _, _, _, h13⟩ :=
    register_global_scope_ignored GraphDB.empty c7Did "g1" rfl
  exact ⟨db', h1, h2, h13 (by simp [GraphDB.empty, GraphDB.global_ids,
    c7Did])⟩

/-! ## Concrete stores exercising the retrieval bugs -/

/-- Computation statement of the C3 counterexample: its `computation`
and `executed_on` references name identifiers that no input or output
names. -/
def c3Comp : Statement :=
  .ComputationRegistration
    { context := ig_common_context_link, id := "urn:cid:comp1",
      type_ := "ComputationRegistration",
      computation := some "urn:cid:prog",
      input := .value "urn:cid:in1", output := .value "urn:cid:out1",
      operated_by := "did:key:w",
      executed_on := some "urn:cid:machine",
      registered_by := "did:key:w",
      timestamp := "2024-01-01T00:00:00Z" }

/-- Metadata statement of the C3 counterexample, whose subject is the
computation's `executed_on` identifier. -/
def c3Meta : Statement :=
  .MetadataRegistration
    { context := ig_common_context_link, id := "urn:cid:meta1",
      type_ := "MetadataRegistration", subject := "urn:cid:machine",
      metadata := "urn:cid:mdoc", registered_by := "did:key:w",
      timestamp := "2024-01-01T00:00:00Z" }

/-- Store of the C3 counterexample: one graph holding the computation
and the metadata statement whose subject is the `executed_on`
identifier. -/
def c3Db : GraphDB :=
  { GraphDB.empty with
      graphs := [{ graph_id := "g1", name := "G", parent_id := none }],
      computation_statements :=
        [{ id := "urn:cid:comp1", statement := c3Comp,
           registered_by := "did:key:w" }],
      metadata_statements :=
        [{ id := "urn:cid:meta1", statement := c3Meta,
           registered_by := "did:key:w",
           subject := "urn:cid:machine" }],
      statement_graph_link :=
        [{ statement_id := "urn:cid:comp1", graph_id := "g1" },
         { statement_id := "urn:cid:meta1", graph_id := "g1" }] }

/-- Counterexample to C3 as stated: the matching set of `retrieve_graph`
does not include `computation` or `executed_on` references. A linked
metadata statement whose subject is the computation's `executed_on`
identifier is absent from the retrieved collection, although the claim's
identifier set (`input ∪ output ∪ computation ∪ executed_on`) contains
its subject. -/
theorem retrieve_graph_ignores_executed_on :
    c3Db.retrieve_graph "g1" =
      .ok { name := "G", id := "g1", parent := none,
            statements := some [c3Comp] } ∧
    c3Meta ∉ [c3Comp] := by
  constructor
  · rfl
  · decide

/-- C3 (amended): the identifier set `retrieve_graph` matches related
statements against is the union of the `input` and `output` members of
the directly-linked computation statements (not `computation` or
`executed_on`). Positively: a linked metadata statement whose subject is
among the input/output identifiers of a computation statement linked to
the requested graph appears in the retrieved statement collection,
provided no data statement shares the metadata row id, there are no
entity-subject index rows, and statement identifiers are unambiguous in
the store. -/
theorem retrieve_graph_matches_input_output
    (db : GraphDB) (gid : String) (g : GraphRow) (crow : StmtRow)
    (c : ComputationStatement) (mrow : MetadataRow)
    (hg : g ∈ db.graphs) (hgid : g.graph_id = gid)
    (hcrow : crow ∈ db.computation_statements)
    (hclink : (⟨crow.id, gid⟩ : LinkRow) ∈ db.statement_graph_link)
    (hcs : crow.statement = .ComputationRegistration c)
    (hmrow : mrow ∈ db.metadata_statements)
    (hmlink : (⟨mrow.id, gid⟩ : LinkRow) ∈ db.statement_graph_link)
    (hsub : mrow.subject ∈ c.input.to_vec_string ++ c.output.to_vec_string)
    (hnd : ∀ d ∈ db.data_statements, d.id ≠ mrow.id)
    (hents : db.entity_statement_subjects = [])
    (huc : ∀ s ∈ db.all_statements,
      s.get_id = crow.statement.get_id → s = crow.statement)
    (hum : ∀ s ∈ db.all_statements,
      s.get_id = mrow.statement.get_id → s = mrow.statement) :
    ∃ gr stmts, db.retrieve_graph gid = .ok gr ∧
      gr.statements = some stmts ∧ mrow.statement ∈ stmts := by
  obtain ⟨crow0, hcrow0, hcrow0s⟩ :=
    mem_computeRows_statement hg hgid hcrow hclink
  obtain ⟨m0, hm0⟩ := rows_to_statements_ok_of_some (db.computeRows gid)
    (fun row hrow => by
      obtain ⟨s, hs⟩ := computeRows_statement_some hrow
      simp [hs])
  have hm0ok : MapOk m0 := rows_to_statements_MapOk hm0
  have hm0prov : ∀ p ∈ m0, p.2 ∈ db.all_statements :=
    rows_to_statements_prov
      (fun row hrow => computeRows_prov row hrow) hm0
  have hkey0 : crow.statement.get_id ∈ m0.map Prod.fst :=
    rows_to_statements_key hm0 hcrow0 hcrow0s
  have hpair0 : (crow.statement.get_id, crow.statement) ∈ m0 :=
    mapOk_pair_mem hm0ok hm0prov hkey0 huc
  have hsubj : mrow.subject ∈ collect_subjects m0 := by
    unfold collect_subjects
    refine List.mem_flatMap.mpr
      ⟨(crow.statement.get_id, crow.statement), hpair0, ?_⟩
    rw [hcs]
    exact hsub
  have hrelrow := mem_relatedRows_metadata hg hgid hmrow hmlink hnd hsubj
  obtain ⟨m1, hm1⟩ := rows_to_statements_ok_of_some
    (db.relatedRows gid (collect_subjects m0))
    (fun row hrow => (relatedRows_spec row hrow).2 hents)
  have hm1prov : ∀ p ∈ m1, p.2 ∈ db.all_statements :=
    rows_to_statements_prov
      (fun row hrow => (relatedRows_spec row hrow).1) hm1
  have hkey1 : mrow.statement.get_id ∈ m1.map Prod.fst :=
    rows_to_statements_key hm1 hrelrow rfl
  have hEprov : ∀ p ∈ extendMap m0 m1, p.2 ∈ db.all_statements := by
    intro p hp
    rcases mem_extendMap_elim hp with h1 | h1
    · exact hm0prov p h1
    · exact hm1prov p h1
  have hEok : MapOk (extendMap m0 m1) :=
    extendMap_MapOk hm0ok (rows_to_statements_MapOk hm1).2
  obtain ⟨m2, hm2, hm2okf, hm2keys⟩ :=
    get_global_statements_spec db (extendMap m0 m1)
  have hm2ok : MapOk m2 := hm2okf hEok
  have hm2prov : ∀ p ∈ m2, p.2 ∈ db.all_statements :=
    get_global_statements_prov hm2 hEprov
  have hkey2 : mrow.statement.get_id ∈ m2.map Prod.fst :=
    hm2keys _ (extendMap_keys_right hkey1)
  have hpair2 : (mrow.statement.get_id, mrow.statement) ∈ m2 :=
    mapOk_pair_mem hm2ok hm2prov hkey2 hum
  unfold GraphDB.retrieve_graph
  cases hfind : db.graphs.find? (fun x => x.graph_id = gid) with
  | none =>
      exfalso
      have hnone := List.find?_eq_none.mp hfind g hg
      simp [hgid] at hnone
  | some graphRow =>
      dsimp only
      rw [if_neg (by simp [isEmpty_false_of_mem hcrow0])]
      rw [hm0]
      dsimp only
      rw [hm1]
      dsimp only
      rw [hm2]
      dsimp only
      exact ⟨_, _, rfl, rfl, List.mem_map.mpr ⟨_, hpair2, rfl⟩⟩

/-- Computation statement of the amended-C3 witness store, with input
`urn:cid:in1` and output `urn:cid:out1`. -/
def c3PosComp : ComputationStatement :=
  { context := ig_common_context_link, id := "urn:cid:comp3",
    type_ := "ComputationRegistration", computation := none,
    input := .value "urn:cid:in1", output := .value "urn:cid:out1",
    operated_by := "did:key:w", executed_on := none,
    registered_by := "did:key:w", timestamp := "2024-01-01T00:00:00Z" }

/-- Metadata statement of the amended-C3 witness store, whose subject is
the computation input `urn:cid:in1`. -/
def c3InMeta : Statement :=
  .MetadataRegistration
    { context := ig_common_context_link, id := "urn:cid:meta2",
      type_ := "MetadataRegistration", subject := "urn:cid:in1",
      metadata := "urn:cid:mdoc", registered_by := "did:key:w",
      timestamp := "2024-01-01T00:00:00Z" }

/-- Store of the amended-C3 witness: one graph holding a computation and
a metadata statement whose subject is among the computation inputs. -/
def c3PosDb : GraphDB :=
  { GraphDB.empty with
      graphs := [{ graph_id := "g1", name := "G", parent_id := none }],
      computation_statements :=
        [{ id := "urn:cid:comp3",
           statement := .ComputationRegistration c3PosComp,
           registered_by := "did:key:w" }],
      metadata_statements :=
        [{ id := "urn:cid:meta2", statement := c3InMeta,
           registered_by := "did:key:w", subject := "urn:cid:in1" }],
      statement_graph_link :=
        [{ statement_id := "urn:cid:comp3", graph_id := "g1" },
         { statement_id := "urn:cid:meta2", graph_id := "g1" }] }

theorem retrieve_graph_matches_input_output_witness :
    ∃ gr stmts, c3PosDb.retrieve_graph "g1" = .ok gr ∧
      gr.statements = some stmts ∧ c3InMeta ∈ stmts :=
  retrieve_graph_matches_input_output c3PosDb "g1"
    ⟨"g1", "G", none⟩
    ⟨"urn:cid:comp3", .ComputationRegistration c3PosComp, "did:key:w"⟩
    c3PosComp
    ⟨"urn:cid:meta2", c3InMeta, "did:key:w", "urn:cid:in1"⟩
    (by decide) rfl (by decide) (by decide) rfl (by decide) (by decide)
    (by decide) (by decide) rfl (by decide) (by decide)

/-- Entity statement of the C4 store, whose entity member equals an
input of the linked computation. -/
def c4Entity : Statement :=
  .EntityRegistration
    { context := ig_common_context_link, id := "urn:cid:ent1",
      type_ := "EntityRegistration", entity := .value "urn:uuid:e1",
      registered_by := "did:key:w", timestamp := "2024-01-01T00:00:00Z" }

/-- Computation statement of the C4 store, with the entity member among
its inputs. -/
def c4Comp : Statement :=
  .ComputationRegistration
    { context := ig_common_context_link, id := "urn:cid:comp2",
      type_ := "ComputationRegistration", computation := none,
      input := .value "urn:uuid:e1", output := .value "urn:cid:out1",
      operated_by := "did:key:w", executed_on := none,
      registered_by := "did:key:w",
      timestamp := "2024-01-01T00:00:00Z" }

/-- Store of the C4 scenario: one graph holding a computation and an
entity statement whose entity member is among the computation's
inputs. -/
def c4Db : GraphDB :=
  { GraphDB.empty with
      graphs := [{ graph_id := "g1", name := "G", parent_id := none }],
      computation_statements :=
        [{ id := "urn:cid:comp2", statement := c4Comp,
           registered_by := "did:key:w" }],
      entity_statements :=
        [{ id := "urn:cid:ent1", statement := c4Entity,
           registered_by := "did:key:w" }],
      entity_statement_subjects :=
        [{ statement_id := "urn:cid:ent1", entity := "urn:uuid:e1" }],
      statement_graph_link :=
        [{ statement_id := "urn:cid:comp2", graph_id := "g1" },
         { statement_id := "urn:cid:ent1", graph_id := "g1" }] }

/-- C4 failing evaluation: a linked entity statement whose entity member
is in the identifier set does not appear in the retrieval result — the
related-statement query matches the row through `ess.entity` but its
`SELECT COALESCE(data.statement, metadata.statement, storage.statement,
association.statement)` has no `entity.statement` alternative, so the
selected statement column is NULL and decoding fails; `retrieve_graph`
returns an error instead of a collection containing the entity
statement. -/
theorem retrieve_graph_entity_match_errors :
    c4Db.retrieve_graph "g1" =
      .error "error decoding column statement: unexpected null" := by
  rfl

/-- C8 failing evaluation: after any registration, direct id lookup
fails in both stores. The graph store's `get_statement_by_id` is
`unimplemented!()` (a panic), and the attribute store's issues `SELECT
statement FROM statements` against a table whose body column is named
`statement_data`, so preparing the query fails with a missing-column
error; neither ever returns the registered statement. -/
theorem get_statement_by_id_broken :
    (∀ (db : GraphDB) (id : String),
      db.get_statement_by_id id = .error "not implemented") ∧
    (∀ (db : AttrDB) (statement : Statement)
      (attributes : List (String × JsonVal)),
      ∃ db', db.register_statement statement attributes = .ok db' ∧
        db'.get_statement_by_id statement.get_id =
          .error "no such column: statement") := by
  refine ⟨fun _ _ => rfl, fun db statement attributes => ⟨_, rfl, ?_⟩⟩
  unfold AttrDB.get_statement_by_id
  rw [if_neg (by decide)]

end Integrity
